import Mathlib

/-!
Verification of the multi-object association core of the flowers-tracker
repository (`src/deep_sort/linear_assignment.py` and `src/deep_sort/tracker.py`).

Shallow embedding conventions:
* cost matrices are total functions `Nat → Nat → ℚ` over (row, column)
  positions of the given index subsets; the floating point values of the
  source are embedded as exact rationals;
* the external scipy `linear_sum_assignment` routine is an oracle parameter
  (`Solver`); the contract of §4.1 of the spec (a one-to-one matching of
  `min(R, C)` pairs) is the predicate `ValidAssignment`, and minimality is
  `OptimalAssignment`;
* Python lists of indices are `List Nat`; a `(matches, unmatched_tracks,
  unmatched_detections)` triple is a `List (Nat × Nat) × List Nat × List Nat`.
-/

namespace FlowersTracker

/-- Sentinel cost `INFTY_COST = 1e+5` from `linear_assignment.py`. -/
def INFTY_COST : ℚ := 100000

/-- Embedding of the in-place clamp
`cost_matrix[cost_matrix > max_distance] = max_distance + 1e-5`
of `min_cost_matching`: entries strictly above `max_distance` are replaced by
`max_distance + 1e-5`, the rest are unchanged. -/
def clampMatrix (cost : Nat → Nat → ℚ) (max_distance : ℚ) : Nat → Nat → ℚ :=
  fun r c => if max_distance < cost r c then max_distance + 1/100000 else cost r c

/-- Contract of the Assignment Solver (§4.1 of the spec, implemented externally
by `scipy.optimize.linear_sum_assignment`): the returned (row, column) pairs
are in range, use no row and no column twice, and cover `min(R, C)` pairs. -/
def ValidAssignment (R C : Nat) (so : List (Nat × Nat)) : Prop :=
  so.length = min R C ∧ (∀ p ∈ so, p.1 < R ∧ p.2 < C) ∧
    (so.map Prod.fst).Nodup ∧ (so.map Prod.snd).Nodup

instance (R C : Nat) (so : List (Nat × Nat)) : Decidable (ValidAssignment R C so) := by
  unfold ValidAssignment; infer_instance

/-- Total cost of a list of solver-chosen pairs under a cost matrix. -/
def assignmentCost (cm : Nat → Nat → ℚ) (so : List (Nat × Nat)) : ℚ :=
  (so.map (fun p => cm p.1 p.2)).sum

/-- Full contract of the Assignment Solver output: a valid matching of minimum
total cost among all valid matchings. -/
def OptimalAssignment (cm : Nat → Nat → ℚ) (R C : Nat) (so : List (Nat × Nat)) : Prop :=
  ValidAssignment R C so ∧
    ∀ so', ValidAssignment R C so' → assignmentCost cm so ≤ assignmentCost cm so'

/-- Type of the solver oracle: from a cost matrix and its dimensions, a list of
(row, column) pairs. -/
def Solver : Type := (Nat → Nat → ℚ) → Nat → Nat → List (Nat × Nat)

/-- A solver oracle honouring the Assignment Solver contract on every input. -/
def SolverSpec (solver : Solver) : Prop :=
  ∀ cm R C, ValidAssignment R C (solver cm R C)

/-- Concrete solver used by witnesses: it pairs row `i` with column `i` for
`i < min R C`, ignoring costs (valid, not necessarily optimal). -/
def diagSolver : Solver := fun _ R C => (List.range (min R C)).map (fun i => (i, i))

/-- Solver output received by `min_cost_matching`: the Assignment Solver is run
on the clamped cost matrix of the two index subsets. -/
def chosenPairs (solver : Solver) (cost : Nat → Nat → ℚ) (max_distance : ℚ)
    (track_indices detection_indices : List Nat) : List (Nat × Nat) :=
  solver (clampMatrix cost max_distance) track_indices.length detection_indices.length

/-- Solver-chosen pairs rejected by the post-filter of `min_cost_matching`:
their entry in the (clamped, as in the source) cost matrix still exceeds
`max_distance`. -/
def mcmRejected (solver : Solver) (cost : Nat → Nat → ℚ) (max_distance : ℚ)
    (track_indices detection_indices : List Nat) : List (Nat × Nat) :=
  (chosenPairs solver cost max_distance track_indices detection_indices).filter
    (fun rc => decide (max_distance < clampMatrix cost max_distance rc.1 rc.2))

/-- Solver-chosen pairs kept as matches by `min_cost_matching`. -/
def mcmAccepted (solver : Solver) (cost : Nat → Nat → ℚ) (max_distance : ℚ)
    (track_indices detection_indices : List Nat) : List (Nat × Nat) :=
  (chosenPairs solver cost max_distance track_indices detection_indices).filter
    (fun rc => ! decide (max_distance < clampMatrix cost max_distance rc.1 rc.2))

/-- Matches returned by `min_cost_matching` (non-degenerate case): accepted
solver pairs, translated from subset positions to original indices. -/
def mcmMatches (solver : Solver) (cost : Nat → Nat → ℚ) (max_distance : ℚ)
    (track_indices detection_indices : List Nat) : List (Nat × Nat) :=
  (mcmAccepted solver cost max_distance track_indices detection_indices).map
    (fun rc => (track_indices.getD rc.1 0, detection_indices.getD rc.2 0))

/-- Unmatched track indices returned by `min_cost_matching` (non-degenerate
case): rows never chosen by the solver (in row order, as the source's first
loop produces them), then the tracks of rejected pairs (in solver order). -/
def mcmUnTracks (solver : Solver) (cost : Nat → Nat → ℚ) (max_distance : ℚ)
    (track_indices detection_indices : List Nat) : List Nat :=
  ((List.range track_indices.length).filter
      (fun row => ! (((chosenPairs solver cost max_distance track_indices
        detection_indices)).map Prod.fst).contains row)).map
    (fun r => track_indices.getD r 0) ++
  (mcmRejected solver cost max_distance track_indices detection_indices).map
    (fun rc => track_indices.getD rc.1 0)

/-- Unmatched detection indices returned by `min_cost_matching`
(non-degenerate case): columns never chosen by the solver, then the detections
of rejected pairs. -/
def mcmUnDets (solver : Solver) (cost : Nat → Nat → ℚ) (max_distance : ℚ)
    (track_indices detection_indices : List Nat) : List Nat :=
  ((List.range detection_indices.length).filter
      (fun col => ! (((chosenPairs solver cost max_distance track_indices
        detection_indices)).map Prod.snd).contains col)).map
    (fun c => detection_indices.getD c 0) ++
  (mcmRejected solver cost max_distance track_indices detection_indices).map
    (fun rc => detection_indices.getD rc.2 0)

/-- Embedding of `min_cost_matching` from `linear_assignment.py` for the case
where both index subsets are passed as Python lists (as every in-repository
caller does).  The guard `(not track_indices) or (not detection_indices)`
is the list-emptiness test; otherwise the cost matrix is computed, clamped in
place, handed to the solver, and the solver-chosen pairs are post-filtered
against `max_distance` (on the clamped matrix, exactly as the source does):
untouched rows/columns fill the unmatched lists first, then rejected pairs are
appended to both unmatched lists, accepted pairs become matches. -/
def min_cost_matching (solver : Solver) (cost : Nat → Nat → ℚ) (max_distance : ℚ)
    (track_indices detection_indices : List Nat) :
    List (Nat × Nat) × List Nat × List Nat :=
  if track_indices.isEmpty || detection_indices.isEmpty then
    ([], track_indices, detection_indices)
  else
    (mcmMatches solver cost max_distance track_indices detection_indices,
     mcmUnTracks solver cost max_distance track_indices detection_indices,
     mcmUnDets solver cost max_distance track_indices detection_indices)

/-- Resolution of a defaulted index-subset argument: `None` becomes
`np.arange(n)` (embedded as `List.range n`), a passed list is kept. -/
def resolveIdx : Option (List Nat) → Nat → List Nat
  | some l, _ => l
  | none, n => List.range n

/-- Embedding of the Python truth test `not x` performed by the guard of
`min_cost_matching` on an index-subset argument.  A passed list is falsy iff
empty.  A defaulted argument is the numpy array `np.arange(n)`: numpy defines
`bool(arr)` as `False` for an empty array, as the truth value of the single
element for a one-element array (so `np.arange(1)`, which holds the single
element `0`, is falsy), and raises `ValueError` for two or more elements. -/
def notTruthy : Option (List Nat) → Nat → Except String Bool
  | some l, _ => .ok l.isEmpty
  | none, n =>
    match List.range n with
    | [] => .ok true
    | [x] => .ok (x == 0)
    | _ => .error "ValueError"

/-- Embedding of `min_cost_matching` including the `None` defaults of its
index-subset parameters and the numpy truthiness of the guard
`if (not track_indices) or (not detection_indices)` (short-circuit `or`,
track side evaluated first). -/
def min_cost_matching_py (solver : Solver) (cost : Nat → Nat → ℚ) (max_distance : ℚ)
    (track_indices detection_indices : Option (List Nat)) (numTracks numDets : Nat) :
    Except String (List (Nat × Nat) × List Nat × List Nat) :=
  let ti := resolveIdx track_indices numTracks
  let di := resolveIdx detection_indices numDets
  match notTruthy track_indices numTracks with
  | .error e => .error e
  | .ok true => .ok ([], ti, di)
  | .ok false =>
    match notTruthy detection_indices numDets with
    | .error e => .error e
    | .ok true => .ok ([], ti, di)
    | .ok false => .ok (min_cost_matching solver cost max_distance ti di)

/-! Helper lemmas about `min_cost_matching`. -/

/-- Clamping never moves an entry across the `max_distance` threshold: the
clamped value exceeds `max_distance` exactly when the original one does
(the clamp target `max_distance + 1e-5` is strictly above `max_distance`). -/
lemma clamp_lt_iff (cost : Nat → Nat → ℚ) (maxD : ℚ) (r c : Nat) :
    maxD < clampMatrix cost maxD r c ↔ maxD < cost r c := by
  unfold clampMatrix
  by_cases h : maxD < cost r c
  · rw [if_pos h]
    constructor
    · intro _; exact h
    · intro _; linarith
  · rw [if_neg h]

/-- Reading every position of a list back with `getD` returns the list. -/
lemma map_getD_range (l : List Nat) : (List.range l.length).map (fun i => l.getD i 0) = l := by
  apply List.ext_getElem (by simp)
  intro i h1 h2
  simp only [List.getElem_map, List.getElem_range]
  exact List.getD_eq_getElem l 0 h2

/-- Positions not covered by a duplicate-free, in-range list of positions,
followed by the covered positions, are a permutation of all positions. -/
lemma cover_perm (n : Nat) (rows : List Nat) (h1 : rows.Nodup) (h2 : ∀ r ∈ rows, r < n) :
    List.Perm (((List.range n).filter (fun r => ! rows.contains r)) ++ rows)
      (List.range n) := by
  have hsel : List.Perm rows ((List.range n).filter (fun r => rows.contains r)) := by
    apply List.perm_of_nodup_nodup_toFinset_eq h1 ((List.nodup_range n).filter _)
    ext a
    simp only [List.mem_toFinset, List.mem_filter, List.mem_range]
    constructor
    · intro ha; exact ⟨h2 a ha, by simpa using ha⟩
    · intro ha; simpa using ha.2
  have t1 : List.Perm (((List.range n).filter (fun r => ! rows.contains r)) ++ rows)
      (((List.range n).filter (fun r => ! rows.contains r)) ++
        ((List.range n).filter (fun r => rows.contains r))) := hsel.append_left _
  have t2 : List.Perm (((List.range n).filter (fun r => ! rows.contains r)) ++
        ((List.range n).filter (fun r => rows.contains r)))
      (((List.range n).filter (fun r => rows.contains r)) ++
        ((List.range n).filter (fun r => ! rows.contains r))) := List.perm_append_comm
  have t3 : List.Perm (((List.range n).filter (fun r => rows.contains r)) ++
        ((List.range n).filter (fun r => ! rows.contains r))) (List.range n) :=
    List.filter_append_perm _ _
  exact t1.trans (t2.trans t3)

/-- Values of a list at uncovered positions followed by its values at the
covered positions are a permutation of the list. -/
lemma cover_getD_perm (l : List Nat) (rows : List Nat) (h1 : rows.Nodup)
    (h2 : ∀ r ∈ rows, r < l.length) :
    List.Perm ((((List.range l.length).filter (fun r => ! rows.contains r)).map
        (fun r => l.getD r 0)) ++ rows.map (fun r => l.getD r 0)) l := by
  have h := (cover_perm l.length rows h1 h2).map (fun r => l.getD r 0)
  rw [List.map_append, map_getD_range] at h
  exact h

/-- Accepted pairs followed by rejected pairs permute the solver output. -/
lemma accepted_rejected_perm (so : List (Nat × Nat)) (p : Nat × Nat → Bool) :
    List.Perm (so.filter (fun rc => ! p rc) ++ so.filter p) so :=
  List.perm_append_comm.trans (List.filter_append_perm p so)

/-- Reshuffling of three appended blocks used when assembling the outputs of
`min_cost_matching`. -/
lemma append_rotate_perm (A U R : List Nat) :
    List.Perm (A ++ (U ++ R)) (U ++ (A ++ R)) := by
  rw [← Multiset.coe_eq_coe, ← Multiset.coe_add, ← Multiset.coe_add,
    ← Multiset.coe_add, ← Multiset.coe_add]
  exact add_left_comm _ _ _

/-- Track components of the matches of `min_cost_matching`, followed by its
unmatched tracks, are a permutation of the track index subset (assuming the
solver honoured its contract on this call). -/
lemma mcm_perm_tracks (solver : Solver) (cost : Nat → Nat → ℚ) (maxD : ℚ)
    (ti di : List Nat)
    (hv : ValidAssignment ti.length di.length (chosenPairs solver cost maxD ti di)) :
    List.Perm ((mcmMatches solver cost maxD ti di).map Prod.fst ++
      mcmUnTracks solver cost maxD ti di) ti := by
  have hnd : ((chosenPairs solver cost maxD ti di).map Prod.fst).Nodup := hv.2.2.1
  have hb : ∀ r ∈ (chosenPairs solver cost maxD ti di).map Prod.fst, r < ti.length := by
    intro r hr
    obtain ⟨q, hq, rfl⟩ := List.mem_map.1 hr
    exact (hv.2.1 q hq).1
  have base := cover_getD_perm ti _ hnd hb
  have hsplit :
      List.Perm
        ((mcmAccepted solver cost maxD ti di).map (fun rc => ti.getD rc.1 0) ++
          (mcmRejected solver cost maxD ti di).map (fun rc => ti.getD rc.1 0))
        (((chosenPairs solver cost maxD ti di).map Prod.fst).map
          (fun r => ti.getD r 0)) := by
    have h := (accepted_rejected_perm (chosenPairs solver cost maxD ti di)
        (fun rc => decide (maxD < clampMatrix cost maxD rc.1 rc.2))).map
        (fun rc => ti.getD rc.1 0)
    rw [List.map_append] at h
    rw [List.map_map]
    exact h
  unfold mcmMatches mcmUnTracks
  rw [List.map_map]
  exact (append_rotate_perm _ _ _).trans ((hsplit.append_left _).trans base)

/-- Detection components of the matches of `min_cost_matching`, followed by
its unmatched detections, are a permutation of the detection index subset. -/
lemma mcm_perm_dets (solver : Solver) (cost : Nat → Nat → ℚ) (maxD : ℚ)
    (ti di : List Nat)
    (hv : ValidAssignment ti.length di.length (chosenPairs solver cost maxD ti di)) :
    List.Perm ((mcmMatches solver cost maxD ti di).map Prod.snd ++
      mcmUnDets solver cost maxD ti di) di := by
  have hnd : ((chosenPairs solver cost maxD ti di).map Prod.snd).Nodup := hv.2.2.2
  have hb : ∀ c ∈ (chosenPairs solver cost maxD ti di).map Prod.snd, c < di.length := by
    intro c hc
    obtain ⟨q, hq, rfl⟩ := List.mem_map.1 hc
    exact (hv.2.1 q hq).2
  have base := cover_getD_perm di _ hnd hb
  have hsplit :
      List.Perm
        ((mcmAccepted solver cost maxD ti di).map (fun rc => di.getD rc.2 0) ++
          (mcmRejected solver cost maxD ti di).map (fun rc => di.getD rc.2 0))
        (((chosenPairs solver cost maxD ti di).map Prod.snd).map
          (fun c => di.getD c 0)) := by
    have h := (accepted_rejected_perm (chosenPairs solver cost maxD ti di)
        (fun rc => decide (maxD < clampMatrix cost maxD rc.1 rc.2))).map
        (fun rc => di.getD rc.2 0)
    rw [List.map_append] at h
    rw [List.map_map]
    exact h
  unfold mcmMatches mcmUnDets
  rw [List.map_map]
  exact (append_rotate_perm _ _ _).trans ((hsplit.append_left _).trans base)

/-- Unfolding of `min_cost_matching` on two non-empty subsets. -/
lemma mcm_eq_of_ne (solver : Solver) (cost : Nat → Nat → ℚ) (maxD : ℚ)
    (ti di : List Nat) (h1 : ti ≠ []) (h2 : di ≠ []) :
    min_cost_matching solver cost maxD ti di =
      (mcmMatches solver cost maxD ti di, mcmUnTracks solver cost maxD ti di,
        mcmUnDets solver cost maxD ti di) := by
  unfold min_cost_matching
  rw [if_neg]
  simp [h1, h2]

/-- Every match of `min_cost_matching` comes from a solver-chosen pair whose
original (pre-clamp) cost does not exceed `max_distance`. -/
lemma mcm_match_mem (solver : Solver) (cost : Nat → Nat → ℚ) (maxD : ℚ)
    (ti di : List Nat)
    (hv : ValidAssignment ti.length di.length (chosenPairs solver cost maxD ti di))
    (p : Nat × Nat) (hp : p ∈ mcmMatches solver cost maxD ti di) :
    ∃ rc ∈ chosenPairs solver cost maxD ti di,
      rc.1 < ti.length ∧ rc.2 < di.length ∧
      p = (ti.getD rc.1 0, di.getD rc.2 0) ∧ cost rc.1 rc.2 ≤ maxD := by
  unfold mcmMatches mcmAccepted at hp
  obtain ⟨rc, hrc, rfl⟩ := List.mem_map.1 hp
  have hmem := List.mem_of_mem_filter hrc
  have hkeep := List.of_mem_filter hrc
  refine ⟨rc, hmem, (hv.2.1 rc hmem).1, (hv.2.1 rc hmem).2, rfl, ?_⟩
  have : ¬ (maxD < clampMatrix cost maxD rc.1 rc.2) := by
    simpa using hkeep
  rw [clamp_lt_iff] at this
  linarith

/-- The diagonal solver honours the Assignment Solver contract. -/
lemma diagSolver_spec : SolverSpec diagSolver := by
  intro cm R C
  refine ⟨by simp [diagSolver], ?_, ?_, ?_⟩
  · intro p hp
    simp only [diagSolver, List.mem_map, List.mem_range] at hp
    obtain ⟨i, hi, rfl⟩ := hp
    exact ⟨lt_of_lt_of_le hi (Nat.min_le_left R C), lt_of_lt_of_le hi (Nat.min_le_right R C)⟩
  · have : ((List.range (min R C)).map (fun i => ((i, i) : Nat × Nat))).map Prod.fst =
        List.range (min R C) := by
      rw [List.map_map]
      exact List.map_id _
    rw [diagSolver, this]
    exact List.nodup_range _
  · have : ((List.range (min R C)).map (fun i => ((i, i) : Nat × Nat))).map Prod.snd =
        List.range (min R C) := by
      rw [List.map_map]
      exact List.map_id _
    rw [diagSolver, this]
    exact List.nodup_range _

/-- Every unmatched track of `min_cost_matching` (non-degenerate case) comes
from a row that either no solver-chosen pair uses, or whose solver-chosen pair
has original cost above `max_distance`. -/
lemma mcm_unmatched_tracks_char (solver : Solver) (cost : Nat → Nat → ℚ) (maxD : ℚ)
    (ti di : List Nat)
    (hv : ValidAssignment ti.length di.length (chosenPairs solver cost maxD ti di))
    (t : Nat) (ht : t ∈ mcmUnTracks solver cost maxD ti di) :
    ∃ r, r < ti.length ∧ ti.getD r 0 = t ∧
      ((∀ rc ∈ chosenPairs solver cost maxD ti di, rc.1 ≠ r) ∨
        (∃ rc ∈ chosenPairs solver cost maxD ti di, rc.1 = r ∧ maxD < cost rc.1 rc.2)) := by
  unfold mcmUnTracks at ht
  rcases List.mem_append.1 ht with h | h
  · obtain ⟨r, hr, rfl⟩ := List.mem_map.1 h
    have hmem := List.mem_of_mem_filter hr
    have hcond := List.of_mem_filter hr
    refine ⟨r, List.mem_range.1 hmem, rfl, Or.inl ?_⟩
    intro rc hrc hEq
    simp at hcond
    refine hcond rc.2 ?_
    have hpair : ((r, rc.2) : Nat × Nat) = rc := by rw [← hEq]
    rwa [hpair]
  · obtain ⟨rc, hrc, rfl⟩ := List.mem_map.1 h
    unfold mcmRejected at hrc
    have hmem := List.mem_of_mem_filter hrc
    have hcond := List.of_mem_filter hrc
    refine ⟨rc.1, (hv.2.1 rc hmem).1, rfl, Or.inr ⟨rc, hmem, rfl, ?_⟩⟩
    rw [← clamp_lt_iff cost maxD rc.1 rc.2]
    simpa using hcond

/-- Analogue of `mcm_unmatched_tracks_char` for unmatched detections. -/
lemma mcm_unmatched_dets_char (solver : Solver) (cost : Nat → Nat → ℚ) (maxD : ℚ)
    (ti di : List Nat)
    (hv : ValidAssignment ti.length di.length (chosenPairs solver cost maxD ti di))
    (d : Nat) (hd : d ∈ mcmUnDets solver cost maxD ti di) :
    ∃ c, c < di.length ∧ di.getD c 0 = d ∧
      ((∀ rc ∈ chosenPairs solver cost maxD ti di, rc.2 ≠ c) ∨
        (∃ rc ∈ chosenPairs solver cost maxD ti di, rc.2 = c ∧ maxD < cost rc.1 rc.2)) := by
  unfold mcmUnDets at hd
  rcases List.mem_append.1 hd with h | h
  · obtain ⟨c, hc, rfl⟩ := List.mem_map.1 h
    have hmem := List.mem_of_mem_filter hc
    have hcond := List.of_mem_filter hc
    refine ⟨c, List.mem_range.1 hmem, rfl, Or.inl ?_⟩
    intro rc hrc hEq
    simp at hcond
    refine hcond rc.1 ?_
    have hpair : ((rc.1, c) : Nat × Nat) = rc := by rw [← hEq]
    rwa [hpair]
  · obtain ⟨rc, hrc, rfl⟩ := List.mem_map.1 h
    unfold mcmRejected at hrc
    have hmem := List.mem_of_mem_filter hrc
    have hcond := List.of_mem_filter hrc
    refine ⟨rc.2, (hv.2.1 rc hmem).2, rfl, Or.inr ⟨rc, hmem, rfl, ?_⟩⟩
    rw [← clamp_lt_iff cost maxD rc.1 rc.2]
    simpa using hcond

/-- Characterization of valid 2×2 assignments: the two row-column permutations
in either listing order. -/
lemma valid22_cases (l : List (Nat × Nat)) (h : ValidAssignment 2 2 l) :
    l = [(0, 0), (1, 1)] ∨ l = [(0, 1), (1, 0)] ∨
      l = [(1, 1), (0, 0)] ∨ l = [(1, 0), (0, 1)] := by
  obtain ⟨hlen, hb, hf, hsn⟩ := h
  rcases l with _ | ⟨p, _ | ⟨q, _ | ⟨r, t⟩⟩⟩
  · simp at hlen
  · simp at hlen
  · obtain ⟨p1, p2⟩ := p
    obtain ⟨q1, q2⟩ := q
    have hp := hb (p1, p2) (by simp)
    have hq := hb (q1, q2) (by simp)
    have hne1 : p1 ≠ q1 := by simp at hf; exact hf
    have hne2 : p2 ≠ q2 := by simp at hsn; exact hsn
    have hb1 : p1 < 2 := hp.1
    have hb2 : p2 < 2 := hp.2
    have hb3 : q1 < 2 := hq.1
    have hb4 : q2 < 2 := hq.2
    interval_cases p1 <;> interval_cases q1 <;> interval_cases p2 <;>
      interval_cases q2 <;> simp_all
  · simp at hlen

/-! Claim theorems about `min_cost_matching`. -/

/-- C1: for every call to `min_cost_matching` with non-empty track and
detection index subsets, every returned match comes from a solver-chosen pair
whose original (pre-clamp) cost is at most `max_distance` (the solver having
run on the clamped matrix, as `chosenPairs` records), and every solver-chosen
pair whose cost exceeds `max_distance` is pushed onto both unmatched lists
instead of being returned as a match. -/
theorem c1_matches_within_threshold (solver : Solver) (cost : Nat → Nat → ℚ)
    (maxD : ℚ) (ti di : List Nat) (hs : SolverSpec solver)
    (h1 : ti ≠ []) (h2 : di ≠ []) :
    (∀ p ∈ (min_cost_matching solver cost maxD ti di).1,
      ∃ rc ∈ chosenPairs solver cost maxD ti di,
        p = (ti.getD rc.1 0, di.getD rc.2 0) ∧ cost rc.1 rc.2 ≤ maxD) ∧
    (∀ rc ∈ chosenPairs solver cost maxD ti di, maxD < cost rc.1 rc.2 →
      ti.getD rc.1 0 ∈ (min_cost_matching solver cost maxD ti di).2.1 ∧
      di.getD rc.2 0 ∈ (min_cost_matching solver cost maxD ti di).2.2) := by
  have hv := hs (clampMatrix cost maxD) ti.length di.length
  rw [mcm_eq_of_ne solver cost maxD ti di h1 h2]
  constructor
  · intro p hp
    obtain ⟨rc, hrc, _, _, hpe, hc⟩ := mcm_match_mem solver cost maxD ti di hv p hp
    exact ⟨rc, hrc, hpe, hc⟩
  · intro rc hrc hgt
    have hrej : rc ∈ mcmRejected solver cost maxD ti di := by
      unfold mcmRejected
      refine List.mem_filter.2 ⟨hrc, ?_⟩
      simp only [decide_eq_true_eq]
      rw [clamp_lt_iff]
      exact hgt
    constructor
    · unfold mcmUnTracks
      exact List.mem_append.2 (Or.inr (List.mem_map.2 ⟨rc, hrej, rfl⟩))
    · unfold mcmUnDets
      exact List.mem_append.2 (Or.inr (List.mem_map.2 ⟨rc, hrej, rfl⟩))

/-- Witness for C1 at a concrete call: one track, one detection, zero cost. -/
theorem c1_witness :
    SolverSpec diagSolver ∧ ([0] : List Nat) ≠ [] ∧
    ((∀ p ∈ (min_cost_matching diagSolver (fun _ _ => (0 : ℚ)) 0 [0] [0]).1,
      ∃ rc ∈ chosenPairs diagSolver (fun _ _ => (0 : ℚ)) 0 [0] [0],
        p = (([0] : List Nat).getD rc.1 0, ([0] : List Nat).getD rc.2 0) ∧
          (0 : ℚ) ≤ 0) ∧
    (∀ rc ∈ chosenPairs diagSolver (fun _ _ => (0 : ℚ)) 0 [0] [0],
      (0 : ℚ) < 0 →
      ([0] : List Nat).getD rc.1 0 ∈
        (min_cost_matching diagSolver (fun _ _ => (0 : ℚ)) 0 [0] [0]).2.1 ∧
      ([0] : List Nat).getD rc.2 0 ∈
        (min_cost_matching diagSolver (fun _ _ => (0 : ℚ)) 0 [0] [0]).2.2)) :=
  ⟨diagSolver_spec, by decide,
    c1_matches_within_threshold diagSolver (fun _ _ => (0 : ℚ)) 0 [0] [0]
      diagSolver_spec (by decide) (by decide)⟩

/-- Cost matrix of the counterexample to C2: rows are tracks `[5, 7]`, columns
detections `[3, 4]`; entries `[[10, 1], [10, 0]]`. -/
def cexCost : Nat → Nat → ℚ := fun r c =>
  if r = 0 then (if c = 0 then 10 else 1) else (if c = 0 then 10 else 0)

/-- Solver of the counterexample to C2; its output is the optimum of the
clamped counterexample matrix (proved in `c2_counterexample`). -/
def cexSolver : Solver := fun _ _ _ => [(0, 0), (1, 1)]

/-- C2 is false as stated: with cost matrix `[[10, 1], [10, 0]]`,
`max_distance = 1`, tracks `[5, 7]` and detections `[3, 4]`, the solver output
`[(0, 0), (1, 1)]` is optimal for the clamped matrix (so a contract-honouring
Assignment Solver can return it), pair `(0, 0)` is rejected, and track `5`
lands on the unmatched list even though its partner detection `4` (entry at
row 0, column 1) has cost `1 ≤ max_distance`. -/
theorem c2_counterexample :
    OptimalAssignment (clampMatrix cexCost 1) 2 2
      (chosenPairs cexSolver cexCost 1 [5, 7] [3, 4]) ∧
    min_cost_matching cexSolver cexCost 1 [5, 7] [3, 4] = ([(7, 4)], [5], [3]) ∧
    ([5, 7] : List Nat).getD 0 0 = 5 ∧ ([3, 4] : List Nat).getD 1 0 = 4 ∧
    (4 : Nat) ∈ ([3, 4] : List Nat) ∧ cexCost 0 1 ≤ 1 := by
  refine ⟨⟨by decide, ?_⟩, ?_, rfl, rfl, by decide, by norm_num [cexCost]⟩
  · intro so' hso'
    have hch : chosenPairs cexSolver cexCost 1 [5, 7] [3, 4] = [(0, 0), (1, 1)] := rfl
    rw [hch]
    rcases valid22_cases so' hso' with rfl | rfl | rfl | rfl <;>
      norm_num [assignmentCost, clampMatrix, cexCost]
  · norm_num [min_cost_matching, mcmMatches, mcmAccepted, mcmRejected,
      mcmUnTracks, mcmUnDets, chosenPairs, cexSolver, cexCost, clampMatrix,
      List.filter, List.range_succ]
    decide

/-- C2 as amended: every unmatched track (detection) index of a
`min_cost_matching` call with non-empty subsets comes from a row (column) of
its subset that either appears in no solver-chosen pair at all, or appears in
a solver-chosen pair whose original cost exceeds `max_distance`; it may still
have other partners within `max_distance`. -/
theorem c2_amended_unmatched (solver : Solver) (cost : Nat → Nat → ℚ)
    (maxD : ℚ) (ti di : List Nat) (hs : SolverSpec solver)
    (h1 : ti ≠ []) (h2 : di ≠ []) :
    (∀ t ∈ (min_cost_matching solver cost maxD ti di).2.1,
      ∃ r, r < ti.length ∧ ti.getD r 0 = t ∧
        ((∀ rc ∈ chosenPairs solver cost maxD ti di, rc.1 ≠ r) ∨
          (∃ rc ∈ chosenPairs solver cost maxD ti di,
            rc.1 = r ∧ maxD < cost rc.1 rc.2))) ∧
    (∀ d ∈ (min_cost_matching solver cost maxD ti di).2.2,
      ∃ c, c < di.length ∧ di.getD c 0 = d ∧
        ((∀ rc ∈ chosenPairs solver cost maxD ti di, rc.2 ≠ c) ∨
          (∃ rc ∈ chosenPairs solver cost maxD ti di,
            rc.2 = c ∧ maxD < cost rc.1 rc.2))) := by
  have hv := hs (clampMatrix cost maxD) ti.length di.length
  rw [mcm_eq_of_ne solver cost maxD ti di h1 h2]
  exact ⟨fun t ht => mcm_unmatched_tracks_char solver cost maxD ti di hv t ht,
    fun d hd => mcm_unmatched_dets_char solver cost maxD ti di hv d hd⟩

/-- Witness for the amended C2 at a concrete call: two tracks, one detection,
zero costs; track `1` is unmatched because the solver left row `1` untouched. -/
theorem c2_witness :
    SolverSpec diagSolver ∧ ([0, 1] : List Nat) ≠ [] ∧
    ((∀ t ∈ (min_cost_matching diagSolver (fun _ _ => (0 : ℚ)) 0 [0, 1] [0]).2.1,
      ∃ r, r < ([0, 1] : List Nat).length ∧ ([0, 1] : List Nat).getD r 0 = t ∧
        ((∀ rc ∈ chosenPairs diagSolver (fun _ _ => (0 : ℚ)) 0 [0, 1] [0], rc.1 ≠ r) ∨
          (∃ rc ∈ chosenPairs diagSolver (fun _ _ => (0 : ℚ)) 0 [0, 1] [0],
            rc.1 = r ∧ (0 : ℚ) < 0))) ∧
    (∀ d ∈ (min_cost_matching diagSolver (fun _ _ => (0 : ℚ)) 0 [0, 1] [0]).2.2,
      ∃ c, c < ([0] : List Nat).length ∧ ([0] : List Nat).getD c 0 = d ∧
        ((∀ rc ∈ chosenPairs diagSolver (fun _ _ => (0 : ℚ)) 0 [0, 1] [0], rc.2 ≠ c) ∨
          (∃ rc ∈ chosenPairs diagSolver (fun _ _ => (0 : ℚ)) 0 [0, 1] [0],
            rc.2 = c ∧ (0 : ℚ) < 0)))) :=
  ⟨diagSolver_spec, by decide,
    c2_amended_unmatched diagSolver (fun _ _ => (0 : ℚ)) 0 [0, 1] [0]
      diagSolver_spec (by decide) (by decide)⟩

/-- C3 is contradicted by the code on defaulted subsets: with one track, one
detection and both index subsets omitted, the defaulted subsets `np.arange(1)`
are non-empty (they are `[0]`), yet the guard `not track_indices` evaluates the
numpy truthiness of a one-element array holding `0`, which is falsy, so the
call short-circuits to (no matches, all unmatched) without invoking the
solver; with two or more tracks the same guard raises `ValueError`. -/
theorem c3_default_subset_bug (solver : Solver) (cost : Nat → Nat → ℚ) (maxD : ℚ) :
    resolveIdx none 1 = [0] ∧ resolveIdx none 1 ≠ [] ∧
    min_cost_matching_py solver cost maxD none none 1 1 = .ok ([], [0], [0]) ∧
    min_cost_matching_py solver cost maxD none none 2 2 = .error "ValueError" :=
  ⟨rfl, by decide, rfl, rfl⟩

/-- C9: for every call to `min_cost_matching` with two non-empty, duplicate-free
index subsets, the outputs partition the inputs: the match tracks together with
the unmatched tracks are a permutation of the track subset (each subset index
occurring exactly once, no outside index ever occurring), and likewise on the
detection side. -/
theorem c9_partition (solver : Solver) (cost : Nat → Nat → ℚ) (maxD : ℚ)
    (ti di : List Nat) (hs : SolverSpec solver) (h1 : ti ≠ []) (h2 : di ≠ [])
    (hndt : ti.Nodup) (hndd : di.Nodup) :
    List.Perm ((min_cost_matching solver cost maxD ti di).1.map Prod.fst ++
      (min_cost_matching solver cost maxD ti di).2.1) ti ∧
    List.Perm ((min_cost_matching solver cost maxD ti di).1.map Prod.snd ++
      (min_cost_matching solver cost maxD ti di).2.2) di ∧
    (∀ x ∈ ti, ((min_cost_matching solver cost maxD ti di).1.map Prod.fst ++
      (min_cost_matching solver cost maxD ti di).2.1).count x = 1) ∧
    (∀ x ∉ ti, ((min_cost_matching solver cost maxD ti di).1.map Prod.fst ++
      (min_cost_matching solver cost maxD ti di).2.1).count x = 0) ∧
    (∀ x ∈ di, ((min_cost_matching solver cost maxD ti di).1.map Prod.snd ++
      (min_cost_matching solver cost maxD ti di).2.2).count x = 1) ∧
    (∀ x ∉ di, ((min_cost_matching solver cost maxD ti di).1.map Prod.snd ++
      (min_cost_matching solver cost maxD ti di).2.2).count x = 0) := by
  have hv := hs (clampMatrix cost maxD) ti.length di.length
  rw [mcm_eq_of_ne solver cost maxD ti di h1 h2]
  have pt := mcm_perm_tracks solver cost maxD ti di hv
  have pd := mcm_perm_dets solver cost maxD ti di hv
  refine ⟨pt, pd, ?_, ?_, ?_, ?_⟩
  · intro x hx; rw [pt.count_eq]; exact List.count_eq_one_of_mem hndt hx
  · intro x hx; rw [pt.count_eq]; exact List.count_eq_zero_of_not_mem hx
  · intro x hx; rw [pd.count_eq]; exact List.count_eq_one_of_mem hndd hx
  · intro x hx; rw [pd.count_eq]; exact List.count_eq_zero_of_not_mem hx

/-- Witness for C9 at a concrete call: two tracks, one detection. -/
theorem c9_witness :
    SolverSpec diagSolver ∧ ([0, 1] : List Nat) ≠ [] ∧ ([0, 1] : List Nat).Nodup ∧
    (List.Perm ((min_cost_matching diagSolver (fun _ _ => (0 : ℚ)) 0 [0, 1] [0]).1.map
        Prod.fst ++
      (min_cost_matching diagSolver (fun _ _ => (0 : ℚ)) 0 [0, 1] [0]).2.1) [0, 1] ∧
    List.Perm ((min_cost_matching diagSolver (fun _ _ => (0 : ℚ)) 0 [0, 1] [0]).1.map
        Prod.snd ++
      (min_cost_matching diagSolver (fun _ _ => (0 : ℚ)) 0 [0, 1] [0]).2.2) [0] ∧
    (∀ x ∈ ([0, 1] : List Nat),
      ((min_cost_matching diagSolver (fun _ _ => (0 : ℚ)) 0 [0, 1] [0]).1.map
        Prod.fst ++
      (min_cost_matching diagSolver (fun _ _ => (0 : ℚ)) 0 [0, 1] [0]).2.1).count x = 1) ∧
    (∀ x ∉ ([0, 1] : List Nat),
      ((min_cost_matching diagSolver (fun _ _ => (0 : ℚ)) 0 [0, 1] [0]).1.map
        Prod.fst ++
      (min_cost_matching diagSolver (fun _ _ => (0 : ℚ)) 0 [0, 1] [0]).2.1).count x = 0) ∧
    (∀ x ∈ ([0] : List Nat),
      ((min_cost_matching diagSolver (fun _ _ => (0 : ℚ)) 0 [0, 1] [0]).1.map
        Prod.snd ++
      (min_cost_matching diagSolver (fun _ _ => (0 : ℚ)) 0 [0, 1] [0]).2.2).count x = 1) ∧
    (∀ x ∉ ([0] : List Nat),
      ((min_cost_matching diagSolver (fun _ _ => (0 : ℚ)) 0 [0, 1] [0]).1.map
        Prod.snd ++
      (min_cost_matching diagSolver (fun _ _ => (0 : ℚ)) 0 [0, 1] [0]).2.2).count x = 0)) :=
  ⟨diagSolver_spec, by decide, by decide,
    c9_partition diagSolver (fun _ _ => (0 : ℚ)) 0 [0, 1] [0]
      diagSolver_spec (by decide) (by decide) (by decide) (by decide)⟩

/-! Embedding of `matching_cascade` from `linear_assignment.py`.  The cost
function is subset-indexed (as the Python `distance_metric` is called with the
current subsets), `tsu` maps a track index to its `time_since_update`
attribute, and the loop body is `cascadeStep`: skip if no unmatched detections
remain (the `break`), skip if no track of the subset has
`time_since_update == 1 + level`, otherwise run the Matcher on this level's
tracks against the current unmatched-detection pool, accumulating matches and
shrinking the pool. -/

/-- Body of the level loop of `matching_cascade`. -/
def cascadeStep (solver : Solver) (costFn : List Nat → List Nat → Nat → Nat → ℚ)
    (max_distance : ℚ) (tsu : Nat → Nat) (track_indices : List Nat)
    (acc : List (Nat × Nat) × List Nat) (level : Nat) :
    List (Nat × Nat) × List Nat :=
  if acc.2.isEmpty then acc
  else
    let track_indices_l := track_indices.filter (fun k => tsu k == 1 + level)
    if track_indices_l.isEmpty then acc
    else
      let r := min_cost_matching solver (costFn track_indices_l acc.2) max_distance
        track_indices_l acc.2
      (acc.1 ++ r.1, r.2.2)

/-- Accumulated (matches, unmatched-detection pool) after the levels
`0, …, level - 1` of the cascade have run. -/
def cascadeState (solver : Solver) (costFn : List Nat → List Nat → Nat → Nat → ℚ)
    (max_distance : ℚ) (tsu : Nat → Nat) (track_indices detection_indices : List Nat)
    (level : Nat) : List (Nat × Nat) × List Nat :=
  (List.range level).foldl (cascadeStep solver costFn max_distance tsu track_indices)
    ([], detection_indices)

/-- Embedding of `matching_cascade`: run the level loop for levels
`0, …, cascade_depth - 1`, then compute the unmatched tracks as the input
track subset minus the matched tracks (the source's
`list(set(track_indices) - set(k for k, _ in matches))`, embedded as a
duplicate-free list). -/
def matching_cascade (solver : Solver) (costFn : List Nat → List Nat → Nat → Nat → ℚ)
    (max_distance : ℚ) (cascade_depth : Nat) (tsu : Nat → Nat)
    (track_indices detection_indices : List Nat) :
    List (Nat × Nat) × List Nat × List Nat :=
  let s := cascadeState solver costFn max_distance tsu track_indices
    detection_indices cascade_depth
  (s.1,
   (track_indices.filter (fun k => ! (s.1.map Prod.fst).contains k)).dedup,
   s.2)

/-- Unfolding of one cascade level. -/
lemma cascadeState_succ (solver : Solver) (costFn : List Nat → List Nat → Nat → Nat → ℚ)
    (maxD : ℚ) (tsu : Nat → Nat) (ti di : List Nat) (l : Nat) :
    cascadeState solver costFn maxD tsu ti di (l + 1) =
      cascadeStep solver costFn maxD tsu ti (cascadeState solver costFn maxD tsu ti di l) l := by
  unfold cascadeState
  rw [show List.range (l + 1) = List.range l ++ [l] by simpa using List.range_succ (n := l),
    List.foldl_append]
  rfl

/-- Reading a list at an in-range position yields a member. -/
lemma getD_mem (l : List Nat) (i : Nat) (h : i < l.length) : l.getD i 0 ∈ l := by
  rw [List.getD_eq_getElem l 0 h]
  exact List.getElem_mem h

/-- Matches only accumulate as the cascade proceeds. -/
lemma cascade_mono (solver : Solver) (costFn : List Nat → List Nat → Nat → Nat → ℚ)
    (maxD : ℚ) (tsu : Nat → Nat) (ti di : List Nat) (l l' : Nat) (h : l ≤ l') :
    ∀ p ∈ (cascadeState solver costFn maxD tsu ti di l).1,
      p ∈ (cascadeState solver costFn maxD tsu ti di l').1 := by
  induction l', h using Nat.le_induction with
  | base => exact fun p hp => hp
  | succ m hm ih =>
    intro p hp
    have hp' := ih p hp
    rw [cascadeState_succ]
    simp only [cascadeStep]
    split
    · exact hp'
    · split
      · exact hp'
      · exact List.mem_append.2 (Or.inl hp')

/-- A level whose track subset is empty changes nothing. -/
lemma cascade_skip (solver : Solver) (costFn : List Nat → List Nat → Nat → Nat → ℚ)
    (maxD : ℚ) (tsu : Nat → Nat) (ti di : List Nat) (l : Nat)
    (h : (ti.filter (fun k => tsu k == 1 + l)).isEmpty = true) :
    cascadeState solver costFn maxD tsu ti di (l + 1) =
      cascadeState solver costFn maxD tsu ti di l := by
  rw [cascadeState_succ]
  simp [cascadeStep, h]

/-- Once the unmatched-detection pool is empty the cascade is frozen. -/
lemma cascade_stop (solver : Solver) (costFn : List Nat → List Nat → Nat → Nat → ℚ)
    (maxD : ℚ) (tsu : Nat → Nat) (ti di : List Nat) (l l' : Nat) (h : l ≤ l')
    (hp : (cascadeState solver costFn maxD tsu ti di l).2 = []) :
    cascadeState solver costFn maxD tsu ti di l' =
      cascadeState solver costFn maxD tsu ti di l := by
  induction l', h using Nat.le_induction with
  | base => rfl
  | succ m hm ih =>
    rw [cascadeState_succ, ih]
    simp [cascadeStep, hp]

/-- Main invariant of the cascade: the detections of the accumulated matches
together with the current pool permute the input detection subset; matched
tracks come from the input subset with `1 ≤ time_since_update ≤ level`; and
for a duplicate-free track subset no track is matched twice. -/
lemma cascade_inv (solver : Solver) (costFn : List Nat → List Nat → Nat → Nat → ℚ)
    (maxD : ℚ) (tsu : Nat → Nat) (ti di : List Nat) (hs : SolverSpec solver) :
    ∀ l, List.Perm (((cascadeState solver costFn maxD tsu ti di l).1.map Prod.snd) ++
        (cascadeState solver costFn maxD tsu ti di l).2) di ∧
      (∀ p ∈ (cascadeState solver costFn maxD tsu ti di l).1,
        p.1 ∈ ti ∧ 1 ≤ tsu p.1 ∧ tsu p.1 ≤ l) ∧
      (ti.Nodup → ((cascadeState solver costFn maxD tsu ti di l).1.map Prod.fst).Nodup) := by
  intro l
  induction l with
  | zero =>
    refine ⟨by simp [cascadeState], ?_, by simp [cascadeState]⟩
    intro p hp
    simp [cascadeState] at hp
  | succ l ih =>
    obtain ⟨ihp, ihm, ihn⟩ := ih
    rw [cascadeState_succ]
    simp only [cascadeStep]
    split
    · exact ⟨ihp, fun p hp => ⟨(ihm p hp).1, (ihm p hp).2.1,
        (ihm p hp).2.2.trans (Nat.le_succ l)⟩, ihn⟩
    · split
      · exact ⟨ihp, fun p hp => ⟨(ihm p hp).1, (ihm p hp).2.1,
          (ihm p hp).2.2.trans (Nat.le_succ l)⟩, ihn⟩
      · rename_i hpool0 htil0
        have hpool : (cascadeState solver costFn maxD tsu ti di l).2 ≠ [] := by
          simpa using hpool0
        have htil : ti.filter (fun k => tsu k == 1 + l) ≠ [] := by
          simpa using htil0
        have hv := hs (clampMatrix
            (costFn (ti.filter (fun k => tsu k == 1 + l))
              (cascadeState solver costFn maxD tsu ti di l).2) maxD)
          (ti.filter (fun k => tsu k == 1 + l)).length
          (cascadeState solver costFn maxD tsu ti di l).2.length
        rw [mcm_eq_of_ne solver _ maxD _ _ htil hpool]
        have pdet := mcm_perm_dets solver
          (costFn (ti.filter (fun k => tsu k == 1 + l))
            (cascadeState solver costFn maxD tsu ti di l).2) maxD
          (ti.filter (fun k => tsu k == 1 + l))
          (cascadeState solver costFn maxD tsu ti di l).2 hv
        have ptr := mcm_perm_tracks solver
          (costFn (ti.filter (fun k => tsu k == 1 + l))
            (cascadeState solver costFn maxD tsu ti di l).2) maxD
          (ti.filter (fun k => tsu k == 1 + l))
          (cascadeState solver costFn maxD tsu ti di l).2 hv
        have hnewtr : ∀ q ∈ mcmMatches solver
            (costFn (ti.filter (fun k => tsu k == 1 + l))
              (cascadeState solver costFn maxD tsu ti di l).2) maxD
            (ti.filter (fun k => tsu k == 1 + l))
            (cascadeState solver costFn maxD tsu ti di l).2,
            q.1 ∈ ti ∧ tsu q.1 = 1 + l := by
          intro q hq
          obtain ⟨rc, _, hr1, _, hqe, _⟩ := mcm_match_mem solver _ maxD _ _ hv q hq
          have hmem : q.1 ∈ ti.filter (fun k => tsu k == 1 + l) := by
            rw [hqe]
            exact getD_mem _ _ hr1
          have := List.mem_filter.1 hmem
          exact ⟨this.1, by simpa using this.2⟩
        refine ⟨?_, ?_, ?_⟩
        · rw [List.map_append, List.append_assoc]
          exact (pdet.append_left _).trans ihp
        · intro p hp
          rcases List.mem_append.1 hp with h | h
          · exact ⟨(ihm p h).1, (ihm p h).2.1, (ihm p h).2.2.trans (Nat.le_succ l)⟩
          · obtain ⟨hpt, hpe⟩ := hnewtr p h
            exact ⟨hpt, by omega, by omega⟩
        · intro hnd
          rw [List.map_append]
          refine List.Nodup.append (ihn hnd) ?_ ?_
          · exact (ptr.symm.nodup (hnd.filter _)).of_append_left
          · intro x hx1 hx2
            obtain ⟨p, hp, rfl⟩ := List.mem_map.1 hx1
            obtain ⟨q, hq, hqe⟩ := List.mem_map.1 hx2
            have h1 := (ihm p hp).2.2
            have h2 := (hnewtr q hq).2
            rw [hqe] at h2
            omega

/-- A match added at level `l` (not present before the level ran) involves a
track of the subset with `time_since_update = 1 + l`. -/
lemma cascade_new_matches (solver : Solver) (costFn : List Nat → List Nat → Nat → Nat → ℚ)
    (maxD : ℚ) (tsu : Nat → Nat) (ti di : List Nat) (hs : SolverSpec solver) (l : Nat) :
    ∀ p ∈ (cascadeState solver costFn maxD tsu ti di (l + 1)).1,
      p ∉ (cascadeState solver costFn maxD tsu ti di l).1 →
      p.1 ∈ ti ∧ tsu p.1 = 1 + l := by
  intro p hp hnot
  rw [cascadeState_succ] at hp
  simp only [cascadeStep] at hp
  split at hp
  · exact absurd hp hnot
  · split at hp
    · exact absurd hp hnot
    · rename_i hpool0 htil0
      have hpool : (cascadeState solver costFn maxD tsu ti di l).2 ≠ [] := by
        simpa using hpool0
      have htil : ti.filter (fun k => tsu k == 1 + l) ≠ [] := by
        simpa using htil0
      rw [mcm_eq_of_ne solver _ maxD _ _ htil hpool] at hp
      rcases List.mem_append.1 hp with h | h
      · exact absurd h hnot
      · have hv := hs (clampMatrix
            (costFn (ti.filter (fun k => tsu k == 1 + l))
              (cascadeState solver costFn maxD tsu ti di l).2) maxD)
          (ti.filter (fun k => tsu k == 1 + l)).length
          (cascadeState solver costFn maxD tsu ti di l).2.length
        obtain ⟨rc, _, hr1, _, hqe, _⟩ := mcm_match_mem solver _ maxD _ _ hv p h
        have hmem : p.1 ∈ ti.filter (fun k => tsu k == 1 + l) := by
          rw [hqe]
          exact getD_mem _ _ hr1
        have hsplit := List.mem_filter.1 hmem
        exact ⟨hsplit.1, by simpa using hsplit.2⟩

/-- Characterization of the unmatched-track list of `matching_cascade`: the
input subset minus the matched tracks, as a set. -/
lemma cascade_ut_iff (solver : Solver) (costFn : List Nat → List Nat → Nat → Nat → ℚ)
    (maxD : ℚ) (depth : Nat) (tsu : Nat → Nat) (ti di : List Nat) (k : Nat) :
    k ∈ (matching_cascade solver costFn maxD depth tsu ti di).2.1 ↔
      (k ∈ ti ∧
        ∀ p ∈ (matching_cascade solver costFn maxD depth tsu ti di).1, p.1 ≠ k) := by
  unfold matching_cascade
  simp only [List.mem_dedup, List.mem_filter]
  constructor
  · rintro ⟨h1, h2⟩
    refine ⟨h1, ?_⟩
    intro p hp hpk
    simp at h2
    refine h2 p.2 ?_
    have hpair : ((k, p.2) : Nat × Nat) = p := by rw [← hpk]
    rwa [hpair]
  · rintro ⟨h1, h2⟩
    refine ⟨h1, ?_⟩
    simp
    intro x hx
    exact h2 (k, x) hx rfl

/-- C4: for every call to `matching_cascade`, a detection matched at some
level is absent from the candidate pool of every later level, and the
detections of the returned matches together with the returned unmatched
detections are a permutation of the (duplicate-free) input detection subset,
each input index occurring exactly once and no other index occurring. -/
theorem c4_cascade_detection_partition (solver : Solver)
    (costFn : List Nat → List Nat → Nat → Nat → ℚ) (maxD : ℚ) (depth : Nat)
    (tsu : Nat → Nat) (ti di : List Nat) (hs : SolverSpec solver) (hndd : di.Nodup) :
    (∀ l l', l ≤ l' → ∀ p ∈ (cascadeState solver costFn maxD tsu ti di l).1,
      p.2 ∉ (cascadeState solver costFn maxD tsu ti di l').2) ∧
    List.Perm ((matching_cascade solver costFn maxD depth tsu ti di).1.map Prod.snd ++
      (matching_cascade solver costFn maxD depth tsu ti di).2.2) di ∧
    (∀ x ∈ di, ((matching_cascade solver costFn maxD depth tsu ti di).1.map Prod.snd ++
      (matching_cascade solver costFn maxD depth tsu ti di).2.2).count x = 1) ∧
    (∀ x ∉ di, ((matching_cascade solver costFn maxD depth tsu ti di).1.map Prod.snd ++
      (matching_cascade solver costFn maxD depth tsu ti di).2.2).count x = 0) := by
  have hinv := cascade_inv solver costFn maxD tsu ti di hs
  have hperm : List.Perm
      ((matching_cascade solver costFn maxD depth tsu ti di).1.map Prod.snd ++
        (matching_cascade solver costFn maxD depth tsu ti di).2.2) di := (hinv depth).1
  refine ⟨?_, hperm, ?_, ?_⟩
  · intro l l' hle p hp hcontra
    have hp' := cascade_mono solver costFn maxD tsu ti di l l' hle p hp
    have hnd : (((cascadeState solver costFn maxD tsu ti di l').1.map Prod.snd) ++
        (cascadeState solver costFn maxD tsu ti di l').2).Nodup :=
      ((hinv l').1).symm.nodup hndd
    have hx : p.2 ∈ (cascadeState solver costFn maxD tsu ti di l').1.map Prod.snd :=
      List.mem_map.2 ⟨p, hp', rfl⟩
    exact (List.disjoint_of_nodup_append hnd) hx hcontra
  · intro x hx
    rw [hperm.count_eq]
    exact List.count_eq_one_of_mem hndd hx
  · intro x hx
    rw [hperm.count_eq]
    exact List.count_eq_zero_of_not_mem hx

/-- C5: for every call to `matching_cascade` (the level loop being the fold of
`cascadeStep` over levels `0, …, cascade_depth - 1`): a level whose track
subset (tracks with `time_since_update = level + 1`) is empty changes nothing;
once no unmatched detections remain every later level changes nothing; a match
added at level `l` involves a track of the input subset with
`time_since_update = l + 1` (so only those tracks are ever submitted at level
`l`); and the returned unmatched-track list is exactly the input track subset
minus the matched tracks. -/
theorem c5_cascade_levels (solver : Solver)
    (costFn : List Nat → List Nat → Nat → Nat → ℚ) (maxD : ℚ) (depth : Nat)
    (tsu : Nat → Nat) (ti di : List Nat) (hs : SolverSpec solver) :
    (∀ l, (ti.filter (fun k => tsu k == 1 + l)).isEmpty = true →
      cascadeState solver costFn maxD tsu ti di (l + 1) =
        cascadeState solver costFn maxD tsu ti di l) ∧
    (∀ l l', l ≤ l' → (cascadeState solver costFn maxD tsu ti di l).2 = [] →
      cascadeState solver costFn maxD tsu ti di l' =
        cascadeState solver costFn maxD tsu ti di l) ∧
    (∀ l, ∀ p ∈ (cascadeState solver costFn maxD tsu ti di (l + 1)).1,
      p ∉ (cascadeState solver costFn maxD tsu ti di l).1 →
      p.1 ∈ ti ∧ tsu p.1 = 1 + l) ∧
    (∀ p ∈ (matching_cascade solver costFn maxD depth tsu ti di).1,
      p.1 ∈ ti ∧ 1 ≤ tsu p.1 ∧ tsu p.1 ≤ depth) ∧
    (∀ k, k ∈ (matching_cascade solver costFn maxD depth tsu ti di).2.1 ↔
      (k ∈ ti ∧
        ∀ p ∈ (matching_cascade solver costFn maxD depth tsu ti di).1, p.1 ≠ k)) :=
  ⟨fun l h => cascade_skip solver costFn maxD tsu ti di l h,
   fun l l' h hp => cascade_stop solver costFn maxD tsu ti di l l' h hp,
   fun l => cascade_new_matches solver costFn maxD tsu ti di hs l,
   fun p hp => (cascade_inv solver costFn maxD tsu ti di hs depth).2.1 p hp,
   fun k => cascade_ut_iff solver costFn maxD depth tsu ti di k⟩

/-- Witness for C4 at a concrete cascade call: one track with
`time_since_update = 1`, one detection, depth 1, zero costs. -/
theorem c4_witness :
    SolverSpec diagSolver ∧ ([0] : List Nat).Nodup ∧
    ((∀ l l', l ≤ l' →
      ∀ p ∈ (cascadeState diagSolver (fun _ _ _ _ => (0 : ℚ)) 0 (fun _ => 1) [0] [0] l).1,
      p.2 ∉ (cascadeState diagSolver (fun _ _ _ _ => (0 : ℚ)) 0 (fun _ => 1) [0] [0] l').2) ∧
    List.Perm ((matching_cascade diagSolver (fun _ _ _ _ => (0 : ℚ)) 0 1
        (fun _ => 1) [0] [0]).1.map Prod.snd ++
      (matching_cascade diagSolver (fun _ _ _ _ => (0 : ℚ)) 0 1
        (fun _ => 1) [0] [0]).2.2) [0] ∧
    (∀ x ∈ ([0] : List Nat),
      ((matching_cascade diagSolver (fun _ _ _ _ => (0 : ℚ)) 0 1
          (fun _ => 1) [0] [0]).1.map Prod.snd ++
        (matching_cascade diagSolver (fun _ _ _ _ => (0 : ℚ)) 0 1
          (fun _ => 1) [0] [0]).2.2).count x = 1) ∧
    (∀ x ∉ ([0] : List Nat),
      ((matching_cascade diagSolver (fun _ _ _ _ => (0 : ℚ)) 0 1
          (fun _ => 1) [0] [0]).1.map Prod.snd ++
        (matching_cascade diagSolver (fun _ _ _ _ => (0 : ℚ)) 0 1
          (fun _ => 1) [0] [0]).2.2).count x = 0)) :=
  ⟨diagSolver_spec, by decide,
    c4_cascade_detection_partition diagSolver (fun _ _ _ _ => (0 : ℚ)) 0 1
      (fun _ => 1) [0] [0] diagSolver_spec (by decide)⟩

/-- Witness for C5 at a concrete cascade call. -/
theorem c5_witness :
    SolverSpec diagSolver ∧
    ((∀ l, (([0] : List Nat).filter (fun k => (fun _ => 1) k == 1 + l)).isEmpty = true →
      cascadeState diagSolver (fun _ _ _ _ => (0 : ℚ)) 0 (fun _ => 1) [0] [0] (l + 1) =
        cascadeState diagSolver (fun _ _ _ _ => (0 : ℚ)) 0 (fun _ => 1) [0] [0] l) ∧
    (∀ l l', l ≤ l' →
      (cascadeState diagSolver (fun _ _ _ _ => (0 : ℚ)) 0 (fun _ => 1) [0] [0] l).2 = [] →
      cascadeState diagSolver (fun _ _ _ _ => (0 : ℚ)) 0 (fun _ => 1) [0] [0] l' =
        cascadeState diagSolver (fun _ _ _ _ => (0 : ℚ)) 0 (fun _ => 1) [0] [0] l) ∧
    (∀ l, ∀ p ∈ (cascadeState diagSolver (fun _ _ _ _ => (0 : ℚ)) 0
        (fun _ => 1) [0] [0] (l + 1)).1,
      p ∉ (cascadeState diagSolver (fun _ _ _ _ => (0 : ℚ)) 0 (fun _ => 1) [0] [0] l).1 →
      p.1 ∈ ([0] : List Nat) ∧ (fun _ => 1) p.1 = 1 + l) ∧
    (∀ p ∈ (matching_cascade diagSolver (fun _ _ _ _ => (0 : ℚ)) 0 2
        (fun _ => 1) [0] [0]).1,
      p.1 ∈ ([0] : List Nat) ∧ 1 ≤ (fun _ => 1) p.1 ∧ (fun _ => 1) p.1 ≤ 2) ∧
    (∀ k, k ∈ (matching_cascade diagSolver (fun _ _ _ _ => (0 : ℚ)) 0 2
        (fun _ => 1) [0] [0]).2.1 ↔
      (k ∈ ([0] : List Nat) ∧
        ∀ p ∈ (matching_cascade diagSolver (fun _ _ _ _ => (0 : ℚ)) 0 2
          (fun _ => 1) [0] [0]).1, p.1 ≠ k))) :=
  ⟨diagSolver_spec,
    c5_cascade_levels diagSolver (fun _ _ _ _ => (0 : ℚ)) 0 2
      (fun _ => 1) [0] [0] diagSolver_spec⟩

/-- Modelled from the spec: the chi-square 0.95 critical-value table
`KalmanFilter.chi_square` of `kalman_filter.py` (that file is not under
`src/`); §4.2 of the spec gives the two entries the Gating Module uses:
dof = 2 → 5.9915 and dof = 4 → 9.4877. -/
def chi_square (dof : Nat) : ℚ :=
  if dof = 2 then 59915/10000 else if dof = 4 then 94877/10000 else 0

/-- Embedding of `get_cost_matrix` from `linear_assignment.py` (the Gating
Module).  The cost matrix is a list of rows; `gd t c` abstracts the collaborator
call `kf.gating_distance(track.mean, track.covariance, measurements,
only_position)`: the squared gating distance between track index `t` and the
`c`-th measurement of the detection subset.  The source iterates the rows
enumerated by `track_indices` and overwrites, in row `row`, every entry whose
gating distance exceeds the threshold with `gated_cost`; rows beyond the track
subset are untouched. -/
def get_cost_matrix (gd : Nat → Nat → ℚ) (cost_matrix : List (List ℚ))
    (track_indices : List Nat) (gated_cost : ℚ) (only_position : Bool) :
    List (List ℚ) :=
  let gating_dim := if only_position then 2 else 4
  let gating_threshold := chi_square gating_dim
  (List.range cost_matrix.length).map (fun row =>
    if row < track_indices.length then
      (List.range (cost_matrix.getD row []).length).map (fun c =>
        if gating_threshold < gd (track_indices.getD row 0) c then gated_cost
        else (cost_matrix.getD row []).getD c 0)
    else cost_matrix.getD row [])

/-- Row extraction from `get_cost_matrix`. -/
lemma gcm_row (gd : Nat → Nat → ℚ) (cm : List (List ℚ)) (ti : List Nat)
    (gc : ℚ) (op : Bool) (i : Nat) (h : i < cm.length) :
    (get_cost_matrix gd cm ti gc op).getD i [] =
      (if i < ti.length then
        (List.range (cm.getD i []).length).map (fun c =>
          if chi_square (if op then 2 else 4) < gd (ti.getD i 0) c then gc
          else (cm.getD i []).getD c 0)
      else cm.getD i []) := by
  unfold get_cost_matrix
  rw [List.getD_eq_getElem _ _ (by simpa using h)]
  rw [List.getElem_map, List.getElem_range]

/-- C6: for every Gating Module call, every entry whose gating distance
(2 degrees of freedom when `only_position` is set, else 4) exceeds the
chi-square critical value of that dimension is overwritten with the sentinel
`INFTY_COST = 1e5`, every other entry is unchanged, and the returned matrix has
the shape of the input matrix (same number of rows, each row of the same
length, rows beyond the track subset untouched). -/
theorem c6_gating (gd : Nat → Nat → ℚ) (cm : List (List ℚ)) (ti : List Nat)
    (op : Bool) (r c : Nat) (hr : r < cm.length) (hrt : r < ti.length)
    (hc : c < (cm.getD r []).length) :
    (get_cost_matrix gd cm ti INFTY_COST op).length = cm.length ∧
    (∀ i, ((get_cost_matrix gd cm ti INFTY_COST op).getD i []).length =
      (cm.getD i []).length) ∧
    ((get_cost_matrix gd cm ti INFTY_COST op).getD r []).getD c 0 =
      (if chi_square (if op then 2 else 4) < gd (ti.getD r 0) c then INFTY_COST
       else (cm.getD r []).getD c 0) ∧
    (∀ i, ti.length ≤ i → i < cm.length →
      (get_cost_matrix gd cm ti INFTY_COST op).getD i [] = cm.getD i []) := by
  refine ⟨by simp [get_cost_matrix], ?_, ?_, ?_⟩
  · intro i
    by_cases hi : i < cm.length
    · rw [gcm_row gd cm ti INFTY_COST op i hi]
      by_cases hit : i < ti.length
      · rw [if_pos hit]; simp
      · rw [if_neg hit]
    · have h1 : (get_cost_matrix gd cm ti INFTY_COST op).length ≤ i := by
        simpa [get_cost_matrix] using Nat.le_of_not_lt hi
      rw [List.getD_eq_default _ _ h1, List.getD_eq_default _ _ (Nat.le_of_not_lt hi)]
  · rw [gcm_row gd cm ti INFTY_COST op r hr, if_pos hrt]
    rw [List.getD_eq_getElem _ _ (by simpa using hc)]
    rw [List.getElem_map, List.getElem_range]
  · intro i h1 h2
    rw [gcm_row gd cm ti INFTY_COST op i h2, if_neg (Nat.not_lt.2 h1)]

/-- Witness for C6 at a concrete call: a 1×1 matrix, full 4-DoF gating. -/
theorem c6_witness :
    (0 : Nat) < ([[(7 : ℚ)]] : List (List ℚ)).length ∧
    (0 : Nat) < ([3] : List Nat).length ∧
    ((get_cost_matrix (fun _ _ => 0) [[(7 : ℚ)]] [3] INFTY_COST false).length =
      ([[(7 : ℚ)]] : List (List ℚ)).length ∧
    (∀ i, ((get_cost_matrix (fun _ _ => 0) [[(7 : ℚ)]] [3] INFTY_COST false).getD
        i []).length = (([[(7 : ℚ)]] : List (List ℚ)).getD i []).length) ∧
    ((get_cost_matrix (fun _ _ => 0) [[(7 : ℚ)]] [3] INFTY_COST false).getD
        0 []).getD 0 0 =
      (if chi_square (if false then 2 else 4) < (fun _ _ => (0 : ℚ)) (([3] : List Nat).getD 0 0) 0
       then INFTY_COST
       else (([[(7 : ℚ)]] : List (List ℚ)).getD 0 []).getD 0 0) ∧
    (∀ i, ([3] : List Nat).length ≤ i → i < ([[(7 : ℚ)]] : List (List ℚ)).length →
      (get_cost_matrix (fun _ _ => 0) [[(7 : ℚ)]] [3] INFTY_COST false).getD i [] =
        ([[(7 : ℚ)]] : List (List ℚ)).getD i [])) :=
  ⟨by decide, by decide,
    c6_gating (fun _ _ => 0) [[(7 : ℚ)]] [3] false 0 0 (by decide) (by decide)
      (by decide)⟩

/-! Embedding of `tracker.py`.  A track record carries the attributes the
matching rounds and the metric refresh read.  The lifecycle states and the
`is_confirmed` / `is_deleted` tests are modelled from the spec (§4.3), since
`track.py` is not under `src/`; feature vectors are lists of rationals. -/

/-- Modelled from the spec: the three lifecycle states of §4.3
(`track.py` is not under `src/`). -/
inductive TrackState where
  | Tentative : TrackState
  | Confirmed : TrackState
  | Deleted : TrackState
deriving DecidableEq

/-- Attributes of a track read by `Tracker._match` and `Tracker.update`. -/
structure TrackRec where
  track_id : Nat
  time_since_update : Nat
  state : TrackState
  features : List (List ℚ)

instance : Inhabited TrackRec := ⟨⟨0, 0, TrackState.Tentative, []⟩⟩

/-- Modelled from the spec: `Track.is_confirmed` (`track.py` is not under
`src/`), true exactly in the Confirmed state. -/
def TrackRec.is_confirmed (t : TrackRec) : Bool := t.state == TrackState.Confirmed

/-- Modelled from the spec: `Track.is_deleted` (`track.py` is not under
`src/`), true exactly in the Deleted state. -/
def TrackRec.is_deleted (t : TrackRec) : Bool := t.state == TrackState.Deleted

/-- Indices of confirmed tracks (`[i for i, t in enumerate(self.tracks) if
t.is_confirmed()]`). -/
def confirmedIdx (tracks : List TrackRec) : List Nat :=
  (List.range tracks.length).filter (fun i => (tracks.getD i default).is_confirmed)

/-- Indices of non-confirmed tracks. -/
def unconfirmedIdx (tracks : List TrackRec) : List Nat :=
  (List.range tracks.length).filter (fun i => ! (tracks.getD i default).is_confirmed)

/-- The `time_since_update` attribute of the track at an index. -/
def trackTsu (tracks : List TrackRec) (i : Nat) : Nat :=
  (tracks.getD i default).time_since_update

/-- The IOU-fallback candidate set of `Tracker._match`: unconfirmed tracks
plus those cascade-unmatched tracks missed exactly one frame ago. -/
def iouCandidates (tracks : List TrackRec) (unmatched_tracks_a : List Nat) : List Nat :=
  unconfirmedIdx tracks ++
    unmatched_tracks_a.filter (fun k => trackTsu tracks k == 1)

/-- Cascade-unmatched tracks kept out of the IOU round by `Tracker._match`
(`time_since_update != 1`). -/
def staleUnmatchedA (tracks : List TrackRec) (unmatched_tracks_a : List Nat) : List Nat :=
  unmatched_tracks_a.filter (fun k => trackTsu tracks k != 1)

/-- Embedding of `Tracker._match`: the appearance cascade over the confirmed
tracks (threshold = the metric's matching threshold, depth = `max_age`,
detection subset defaulted to all detections), then the IOU round of
`min_cost_matching` over the fallback candidates against the cascade-unmatched
detections; matches are concatenated and the unmatched-track sets united
without duplicates (the source's `list(set(...))`). -/
def tracker_match (solver : Solver)
    (gatedCost iouCost : List Nat → List Nat → Nat → Nat → ℚ)
    (matching_threshold max_iou_distance : ℚ) (max_age : Nat)
    (tracks : List TrackRec) (numDets : Nat) :
    List (Nat × Nat) × List Nat × List Nat :=
  let a := matching_cascade solver gatedCost matching_threshold max_age
    (trackTsu tracks) (confirmedIdx tracks) (List.range numDets)
  let b := min_cost_matching solver (iouCost (iouCandidates tracks a.2.1) a.2.2)
    max_iou_distance (iouCandidates tracks a.2.1) a.2.2
  (a.1 ++ b.1, (staleUnmatchedA tracks a.2.1 ++ b.2.1).dedup, b.2.2)

/-- C7: in every `Tracker._match`, the IOU round runs over exactly the
candidate set made of the non-Confirmed tracks plus the cascade-unmatched
(necessarily Confirmed) tracks with `time_since_update = 1`; every
cascade-unmatched track with `time_since_update ≠ 1` is excluded from the IOU
round and appears in the final unmatched-track set. -/
theorem c7_iou_candidates (solver : Solver)
    (gatedCost iouCost : List Nat → List Nat → Nat → Nat → ℚ)
    (mthr miou : ℚ) (max_age : Nat) (tracks : List TrackRec) (numDets : Nat) :
    (∀ k, k ∈ iouCandidates tracks
        (matching_cascade solver gatedCost mthr max_age (trackTsu tracks)
          (confirmedIdx tracks) (List.range numDets)).2.1 ↔
      ((k < tracks.length ∧ ¬ (tracks.getD k default).is_confirmed = true) ∨
        (k ∈ (matching_cascade solver gatedCost mthr max_age (trackTsu tracks)
            (confirmedIdx tracks) (List.range numDets)).2.1 ∧
          (tracks.getD k default).is_confirmed = true ∧ trackTsu tracks k = 1))) ∧
    (∀ k ∈ (matching_cascade solver gatedCost mthr max_age (trackTsu tracks)
        (confirmedIdx tracks) (List.range numDets)).2.1,
      trackTsu tracks k ≠ 1 →
      k ∉ iouCandidates tracks
        (matching_cascade solver gatedCost mthr max_age (trackTsu tracks)
          (confirmedIdx tracks) (List.range numDets)).2.1 ∧
      k ∈ (tracker_match solver gatedCost iouCost mthr miou max_age
        tracks numDets).2.1) := by
  have hconf : ∀ k ∈ (matching_cascade solver gatedCost mthr max_age (trackTsu tracks)
      (confirmedIdx tracks) (List.range numDets)).2.1,
      k < tracks.length ∧ (tracks.getD k default).is_confirmed = true := by
    intro k hk
    have := ((cascade_ut_iff solver gatedCost mthr max_age (trackTsu tracks)
      (confirmedIdx tracks) (List.range numDets) k).1 hk).1
    have hmem := List.mem_filter.1 this
    exact ⟨List.mem_range.1 hmem.1, hmem.2⟩
  constructor
  · intro k
    constructor
    · intro hk
      rcases List.mem_append.1 hk with h | h
      · have hmem := List.mem_filter.1 h
        exact Or.inl ⟨List.mem_range.1 hmem.1, by simpa using hmem.2⟩
      · have hmem := List.mem_filter.1 h
        exact Or.inr ⟨hmem.1, (hconf k hmem.1).2, by simpa using hmem.2⟩
    · intro hk
      rcases hk with ⟨h1, h2⟩ | ⟨h1, _, h3⟩
      · exact List.mem_append.2 (Or.inl (List.mem_filter.2
          ⟨List.mem_range.2 h1, by simpa using h2⟩))
      · exact List.mem_append.2 (Or.inr (List.mem_filter.2
          ⟨h1, by simpa using h3⟩))
  · intro k hk hne
    constructor
    · intro hcand
      rcases List.mem_append.1 hcand with h | h
      · have hmem := List.mem_filter.1 h
        have := (hconf k hk).2
        simp only [Bool.not_eq_true'] at hmem
        rw [this] at hmem
        exact absurd hmem.2 (by simp)
      · have hmem := List.mem_filter.1 h
        exact hne (by simpa using hmem.2)
    · simp only [tracker_match]
      rw [List.mem_dedup]
      refine List.mem_append.2 (Or.inl ?_)
      unfold staleUnmatchedA
      exact List.mem_filter.2 ⟨hk, by simpa using hne⟩

/-- Witness for C7 at a concrete `Tracker._match` call: one confirmed track
missed two frames ago, one detection. -/
theorem c7_witness :
    ((∀ k, k ∈ iouCandidates [⟨9, 2, TrackState.Confirmed, []⟩]
        (matching_cascade diagSolver (fun _ _ _ _ => (0 : ℚ)) 0 1
          (trackTsu [⟨9, 2, TrackState.Confirmed, []⟩])
          (confirmedIdx [⟨9, 2, TrackState.Confirmed, []⟩]) (List.range 1)).2.1 ↔
      ((k < ([⟨9, 2, TrackState.Confirmed, []⟩] : List TrackRec).length ∧
        ¬ (([⟨9, 2, TrackState.Confirmed, []⟩] : List TrackRec).getD k
          default).is_confirmed = true) ∨
        (k ∈ (matching_cascade diagSolver (fun _ _ _ _ => (0 : ℚ)) 0 1
            (trackTsu [⟨9, 2, TrackState.Confirmed, []⟩])
            (confirmedIdx [⟨9, 2, TrackState.Confirmed, []⟩]) (List.range 1)).2.1 ∧
          (([⟨9, 2, TrackState.Confirmed, []⟩] : List TrackRec).getD k
            default).is_confirmed = true ∧
          trackTsu [⟨9, 2, TrackState.Confirmed, []⟩] k = 1))) ∧
    (∀ k ∈ (matching_cascade diagSolver (fun _ _ _ _ => (0 : ℚ)) 0 1
        (trackTsu [⟨9, 2, TrackState.Confirmed, []⟩])
        (confirmedIdx [⟨9, 2, TrackState.Confirmed, []⟩]) (List.range 1)).2.1,
      trackTsu [⟨9, 2, TrackState.Confirmed, []⟩] k ≠ 1 →
      k ∉ iouCandidates [⟨9, 2, TrackState.Confirmed, []⟩]
        (matching_cascade diagSolver (fun _ _ _ _ => (0 : ℚ)) 0 1
          (trackTsu [⟨9, 2, TrackState.Confirmed, []⟩])
          (confirmedIdx [⟨9, 2, TrackState.Confirmed, []⟩]) (List.range 1)).2.1 ∧
      k ∈ (tracker_match diagSolver (fun _ _ _ _ => (0 : ℚ)) (fun _ _ _ _ => (0 : ℚ))
        0 0 1 [⟨9, 2, TrackState.Confirmed, []⟩] 1).2.1)) :=
  c7_iou_candidates diagSolver (fun _ _ _ _ => (0 : ℚ)) (fun _ _ _ _ => (0 : ℚ))
    0 0 1 [⟨9, 2, TrackState.Confirmed, []⟩] 1

/-- Embedding of the metric-refresh tail of `Tracker.update` (after lifecycle
transitions): deleted tracks are dropped, the ids of the remaining confirmed
tracks become `active_targets`, the loop over the remaining tracks skips
non-confirmed ones and appends each confirmed track's buffered features to
`features` and its id once per feature to `targets`, then clears that track's
buffer; the result collects the updated track list and the three arguments of
the single `self.metric.partial_fit(features, targets, active_targets)`
call. -/
def metricRefresh (tracks : List TrackRec) :
    List TrackRec × List (List ℚ) × List Nat × List Nat :=
  let live := tracks.filter (fun t => ! t.is_deleted)
  let active_targets := (live.filter (fun t => t.is_confirmed)).map TrackRec.track_id
  let features := (live.filter (fun t => t.is_confirmed)).flatMap TrackRec.features
  let targets := (live.filter (fun t => t.is_confirmed)).flatMap
    (fun t => t.features.map (fun _ => t.track_id))
  let newTracks := live.map
    (fun t => if t.is_confirmed then { t with features := [] } else t)
  (newTracks, features, targets, active_targets)

/-- Zipping a list with a constant tag. -/
lemma zip_map_const {α β : Type} (l : List α) (c : β) :
    l.zip (l.map (fun _ => c)) = l.map (fun a => (a, c)) := by
  induction l with
  | nil => rfl
  | cons x xs ih => simp only [List.map_cons, List.zip_cons_cons, ih]

/-- The features and targets fed to the metric align: zipped, they are exactly
each confirmed track's features tagged with that track's id. -/
lemma flatMap_zip_targets (ts : List TrackRec) :
    (ts.flatMap TrackRec.features).zip
      (ts.flatMap (fun t => t.features.map (fun _ => t.track_id))) =
    ts.flatMap (fun t => t.features.map (fun f => (f, t.track_id))) := by
  induction ts with
  | nil => rfl
  | cons t ts ih =>
    simp only [List.flatMap_cons]
    rw [List.zip_append (by simp), ih, zip_map_const]

/-- C8: in every `Tracker.update`, after deleted tracks are dropped the metric
partial-fit call receives exactly the concatenation of the remaining confirmed
tracks' feature buffers, each feature tagged with its own track's id (the
zipped feature/target lists agree pairwise), and the active-target list equal
to the ids of the remaining confirmed tracks; afterwards every confirmed
track's buffer is empty while non-confirmed tracks keep id, state and buffer
unchanged, and the track list itself keeps its length. -/
theorem c8_metric_refresh (tracks : List TrackRec) (i : Nat)
    (hi : i < (tracks.filter (fun t => ! t.is_deleted)).length) :
    ((metricRefresh tracks).2.1).zip (metricRefresh tracks).2.2.1 =
      ((tracks.filter (fun t => ! t.is_deleted)).filter
        (fun t => t.is_confirmed)).flatMap
          (fun t => t.features.map (fun f => (f, t.track_id))) ∧
    (metricRefresh tracks).2.2.2 =
      ((tracks.filter (fun t => ! t.is_deleted)).filter
        (fun t => t.is_confirmed)).map TrackRec.track_id ∧
    ((metricRefresh tracks).1).length =
      (tracks.filter (fun t => ! t.is_deleted)).length ∧
    ((metricRefresh tracks).1.getD i default).track_id =
      ((tracks.filter (fun t => ! t.is_deleted)).getD i default).track_id ∧
    ((metricRefresh tracks).1.getD i default).state =
      ((tracks.filter (fun t => ! t.is_deleted)).getD i default).state ∧
    ((metricRefresh tracks).1.getD i default).features =
      (if ((tracks.filter (fun t => ! t.is_deleted)).getD i default).is_confirmed
       then []
       else ((tracks.filter (fun t => ! t.is_deleted)).getD i default).features) := by
  have hrow : (metricRefresh tracks).1.getD i default =
      (if ((tracks.filter (fun t => ! t.is_deleted)).getD i default).is_confirmed
       then { (tracks.filter (fun t => ! t.is_deleted)).getD i default with
                features := [] }
       else (tracks.filter (fun t => ! t.is_deleted)).getD i default) := by
    show ((tracks.filter (fun t => ! t.is_deleted)).map
        (fun t => if t.is_confirmed then { t with features := [] } else t)).getD i default =
      _
    rw [List.getD_eq_getElem _ _ (by simpa using hi), List.getElem_map,
      List.getD_eq_getElem _ _ hi]
  refine ⟨flatMap_zip_targets _, rfl, by simp [metricRefresh], ?_, ?_, ?_⟩
  · rw [hrow]
    by_cases h : ((tracks.filter (fun t => ! t.is_deleted)).getD i default).is_confirmed
    · rw [if_pos h]
    · rw [if_neg h]
  · rw [hrow]
    by_cases h : ((tracks.filter (fun t => ! t.is_deleted)).getD i default).is_confirmed
    · rw [if_pos h]
    · rw [if_neg h]
  · rw [hrow]
    by_cases h : ((tracks.filter (fun t => ! t.is_deleted)).getD i default).is_confirmed
    · rw [if_pos h, if_pos h]
    · rw [if_neg h, if_neg h]

/-- Witness for C8 on a concrete track list: one confirmed track with one
buffered feature, one tentative track with a buffered feature, one deleted
track. -/
theorem c8_witness :
    (0 : Nat) < (([⟨1, 0, TrackState.Confirmed, [[5]]⟩,
        ⟨2, 0, TrackState.Tentative, [[6]]⟩,
        ⟨3, 0, TrackState.Deleted, []⟩] : List TrackRec).filter
      (fun t => ! t.is_deleted)).length ∧
    (((metricRefresh [⟨1, 0, TrackState.Confirmed, [[5]]⟩,
        ⟨2, 0, TrackState.Tentative, [[6]]⟩,
        ⟨3, 0, TrackState.Deleted, []⟩]).2.1).zip
      (metricRefresh [⟨1, 0, TrackState.Confirmed, [[5]]⟩,
        ⟨2, 0, TrackState.Tentative, [[6]]⟩,
        ⟨3, 0, TrackState.Deleted, []⟩]).2.2.1 =
      ((([⟨1, 0, TrackState.Confirmed, [[5]]⟩,
        ⟨2, 0, TrackState.Tentative, [[6]]⟩,
        ⟨3, 0, TrackState.Deleted, []⟩] : List TrackRec).filter
          (fun t => ! t.is_deleted)).filter (fun t => t.is_confirmed)).flatMap
        (fun t => t.features.map (fun f => (f, t.track_id))) ∧
    (metricRefresh [⟨1, 0, TrackState.Confirmed, [[5]]⟩,
        ⟨2, 0, TrackState.Tentative, [[6]]⟩,
        ⟨3, 0, TrackState.Deleted, []⟩]).2.2.2 =
      ((([⟨1, 0, TrackState.Confirmed, [[5]]⟩,
        ⟨2, 0, TrackState.Tentative, [[6]]⟩,
        ⟨3, 0, TrackState.Deleted, []⟩] : List TrackRec).filter
          (fun t => ! t.is_deleted)).filter
        (fun t => t.is_confirmed)).map TrackRec.track_id ∧
    ((metricRefresh [⟨1, 0, TrackState.Confirmed, [[5]]⟩,
        ⟨2, 0, TrackState.Tentative, [[6]]⟩,
        ⟨3, 0, TrackState.Deleted, []⟩]).1).length =
      (([⟨1, 0, TrackState.Confirmed, [[5]]⟩,
        ⟨2, 0, TrackState.Tentative, [[6]]⟩,
        ⟨3, 0, TrackState.Deleted, []⟩] : List TrackRec).filter
          (fun t => ! t.is_deleted)).length ∧
    ((metricRefresh [⟨1, 0, TrackState.Confirmed, [[5]]⟩,
        ⟨2, 0, TrackState.Tentative, [[6]]⟩,
        ⟨3, 0, TrackState.Deleted, []⟩]).1.getD 0 default).track_id =
      ((([⟨1, 0, TrackState.Confirmed, [[5]]⟩,
        ⟨2, 0, TrackState.Tentative, [[6]]⟩,
        ⟨3, 0, TrackState.Deleted, []⟩] : List TrackRec).filter
          (fun t => ! t.is_deleted)).getD 0 default).track_id ∧
    ((metricRefresh [⟨1, 0, TrackState.Confirmed, [[5]]⟩,
        ⟨2, 0, TrackState.Tentative, [[6]]⟩,
        ⟨3, 0, TrackState.Deleted, []⟩]).1.getD 0 default).state =
      ((([⟨1, 0, TrackState.Confirmed, [[5]]⟩,
        ⟨2, 0, TrackState.Tentative, [[6]]⟩,
        ⟨3, 0, TrackState.Deleted, []⟩] : List TrackRec).filter
          (fun t => ! t.is_deleted)).getD 0 default).state ∧
    ((metricRefresh [⟨1, 0, TrackState.Confirmed, [[5]]⟩,
        ⟨2, 0, TrackState.Tentative, [[6]]⟩,
        ⟨3, 0, TrackState.Deleted, []⟩]).1.getD 0 default).features =
      (if ((([⟨1, 0, TrackState.Confirmed, [[5]]⟩,
        ⟨2, 0, TrackState.Tentative, [[6]]⟩,
        ⟨3, 0, TrackState.Deleted, []⟩] : List TrackRec).filter
          (fun t => ! t.is_deleted)).getD 0 default).is_confirmed
       then []
       else ((([⟨1, 0, TrackState.Confirmed, [[5]]⟩,
        ⟨2, 0, TrackState.Tentative, [[6]]⟩,
        ⟨3, 0, TrackState.Deleted, []⟩] : List TrackRec).filter
          (fun t => ! t.is_deleted)).getD 0 default).features)) :=
  ⟨by decide,
    c8_metric_refresh [⟨1, 0, TrackState.Confirmed, [[5]]⟩,
      ⟨2, 0, TrackState.Tentative, [[6]]⟩,
      ⟨3, 0, TrackState.Deleted, []⟩] 0 (by decide)⟩

/-- C10: in every `Tracker._match`, the combined match list of the appearance
cascade round and the IOU fallback round is one-to-one: no track index and no
detection index occurs in two match pairs, and no detection occurs both in a
match and in the returned unmatched-detection list. -/
theorem c10_one_to_one (solver : Solver)
    (gatedCost iouCost : List Nat → List Nat → Nat → Nat → ℚ)
    (mthr miou : ℚ) (max_age : Nat) (tracks : List TrackRec) (numDets : Nat)
    (hs : SolverSpec solver) :
    ((tracker_match solver gatedCost iouCost mthr miou max_age tracks
      numDets).1.map Prod.fst).Nodup ∧
    ((tracker_match solver gatedCost iouCost mthr miou max_age tracks
      numDets).1.map Prod.snd).Nodup ∧
    (∀ d ∈ (tracker_match solver gatedCost iouCost mthr miou max_age tracks
      numDets).1.map Prod.snd,
      d ∉ (tracker_match solver gatedCost iouCost mthr miou max_age tracks
        numDets).2.2) := by
  have hti_nd : (confirmedIdx tracks).Nodup := (List.nodup_range _).filter _
  have hdi_nd : (List.range numDets).Nodup := List.nodup_range _
  have hinv := cascade_inv solver gatedCost mthr (trackTsu tracks)
    (confirmedIdx tracks) (List.range numDets) hs max_age
  have permA : List.Perm
      ((matching_cascade solver gatedCost mthr max_age (trackTsu tracks)
        (confirmedIdx tracks) (List.range numDets)).1.map Prod.snd ++
       (matching_cascade solver gatedCost mthr max_age (trackTsu tracks)
        (confirmedIdx tracks) (List.range numDets)).2.2) (List.range numDets) :=
    hinv.1
  have memA : ∀ p ∈ (matching_cascade solver gatedCost mthr max_age (trackTsu tracks)
      (confirmedIdx tracks) (List.range numDets)).1, p.1 ∈ confirmedIdx tracks :=
    fun p hp => (hinv.2.1 p hp).1
  have nodupA_fst : ((matching_cascade solver gatedCost mthr max_age (trackTsu tracks)
      (confirmedIdx tracks) (List.range numDets)).1.map Prod.fst).Nodup :=
    hinv.2.2 hti_nd
  have nodupA_all : ((matching_cascade solver gatedCost mthr max_age (trackTsu tracks)
      (confirmedIdx tracks) (List.range numDets)).1.map Prod.snd ++
      (matching_cascade solver gatedCost mthr max_age (trackTsu tracks)
        (confirmedIdx tracks) (List.range numDets)).2.2).Nodup :=
    permA.symm.nodup hdi_nd
  have nodupA_snd := nodupA_all.of_append_left
  have nodupA_pool := nodupA_all.of_append_right
  have disjA := List.disjoint_of_nodup_append nodupA_all
  have hutA_nd : ((matching_cascade solver gatedCost mthr max_age (trackTsu tracks)
      (confirmedIdx tracks) (List.range numDets)).2.1).Nodup :=
    List.nodup_dedup _
  have hcands_nd : (iouCandidates tracks
      (matching_cascade solver gatedCost mthr max_age (trackTsu tracks)
        (confirmedIdx tracks) (List.range numDets)).2.1).Nodup := by
    refine List.Nodup.append ((List.nodup_range _).filter _) (hutA_nd.filter _) ?_
    intro x hx1 hx2
    have h1 := List.of_mem_filter hx1
    have hx2' := List.mem_of_mem_filter hx2
    have hconf : x ∈ confirmedIdx tracks :=
      ((cascade_ut_iff solver gatedCost mthr max_age (trackTsu tracks)
        (confirmedIdx tracks) (List.range numDets) x).1 hx2').1
    have h2 := List.of_mem_filter hconf
    simp only [Bool.not_eq_true'] at h1
    rw [h2] at h1
    exact absurd h1 (by simp)
  have hutA_notmatched : ∀ x ∈ (matching_cascade solver gatedCost mthr max_age
      (trackTsu tracks) (confirmedIdx tracks) (List.range numDets)).2.1,
      ∀ p ∈ (matching_cascade solver gatedCost mthr max_age (trackTsu tracks)
        (confirmedIdx tracks) (List.range numDets)).1, p.1 ≠ x :=
    fun x hx => ((cascade_ut_iff solver gatedCost mthr max_age (trackTsu tracks)
      (confirmedIdx tracks) (List.range numDets) x).1 hx).2
  simp only [tracker_match]
  by_cases hg : ((iouCandidates tracks
      (matching_cascade solver gatedCost mthr max_age (trackTsu tracks)
        (confirmedIdx tracks) (List.range numDets)).2.1).isEmpty ||
      (matching_cascade solver gatedCost mthr max_age (trackTsu tracks)
        (confirmedIdx tracks) (List.range numDets)).2.2.isEmpty) = true
  · rw [show min_cost_matching solver
        (iouCost (iouCandidates tracks (matching_cascade solver gatedCost mthr
          max_age (trackTsu tracks) (confirmedIdx tracks) (List.range numDets)).2.1)
          (matching_cascade solver gatedCost mthr max_age (trackTsu tracks)
            (confirmedIdx tracks) (List.range numDets)).2.2) miou
        (iouCandidates tracks (matching_cascade solver gatedCost mthr max_age
          (trackTsu tracks) (confirmedIdx tracks) (List.range numDets)).2.1)
        (matching_cascade solver gatedCost mthr max_age (trackTsu tracks)
          (confirmedIdx tracks) (List.range numDets)).2.2 =
        ([], iouCandidates tracks (matching_cascade solver gatedCost mthr max_age
          (trackTsu tracks) (confirmedIdx tracks) (List.range numDets)).2.1,
         (matching_cascade solver gatedCost mthr max_age (trackTsu tracks)
          (confirmedIdx tracks) (List.range numDets)).2.2) from by
      unfold min_cost_matching
      rw [if_pos hg]]
    refine ⟨by simpa using nodupA_fst, by simpa using nodupA_snd, ?_⟩
    intro d hd
    simp only [List.append_nil, List.map_append] at hd ⊢
    exact disjA hd
  · have hgf : ((iouCandidates tracks
        (matching_cascade solver gatedCost mthr max_age (trackTsu tracks)
          (confirmedIdx tracks) (List.range numDets)).2.1).isEmpty ||
        (matching_cascade solver gatedCost mthr max_age (trackTsu tracks)
          (confirmedIdx tracks) (List.range numDets)).2.2.isEmpty) = false :=
      Bool.eq_false_iff.2 hg
    have hg' := Bool.or_eq_false_iff.1 hgf
    have hne1 : iouCandidates tracks
        (matching_cascade solver gatedCost mthr max_age (trackTsu tracks)
          (confirmedIdx tracks) (List.range numDets)).2.1 ≠ [] := by
      have h := hg'.1
      simpa using h
    have hne2 : (matching_cascade solver gatedCost mthr max_age (trackTsu tracks)
        (confirmedIdx tracks) (List.range numDets)).2.2 ≠ [] := by
      have h := hg'.2
      simpa using h
    have hv := hs (clampMatrix (iouCost (iouCandidates tracks
        (matching_cascade solver gatedCost mthr max_age (trackTsu tracks)
          (confirmedIdx tracks) (List.range numDets)).2.1)
        (matching_cascade solver gatedCost mthr max_age (trackTsu tracks)
          (confirmedIdx tracks) (List.range numDets)).2.2) miou)
      (iouCandidates tracks (matching_cascade solver gatedCost mthr max_age
        (trackTsu tracks) (confirmedIdx tracks) (List.range numDets)).2.1).length
      (matching_cascade solver gatedCost mthr max_age (trackTsu tracks)
        (confirmedIdx tracks) (List.range numDets)).2.2.length
    rw [mcm_eq_of_ne solver _ miou _ _ hne1 hne2]
    have permB_t := mcm_perm_tracks solver (iouCost (iouCandidates tracks
        (matching_cascade solver gatedCost mthr max_age (trackTsu tracks)
          (confirmedIdx tracks) (List.range numDets)).2.1)
        (matching_cascade solver gatedCost mthr max_age (trackTsu tracks)
          (confirmedIdx tracks) (List.range numDets)).2.2) miou
      (iouCandidates tracks (matching_cascade solver gatedCost mthr max_age
        (trackTsu tracks) (confirmedIdx tracks) (List.range numDets)).2.1)
      (matching_cascade solver gatedCost mthr max_age (trackTsu tracks)
        (confirmedIdx tracks) (List.range numDets)).2.2 hv
    have permB_d := mcm_perm_dets solver (iouCost (iouCandidates tracks
        (matching_cascade solver gatedCost mthr max_age (trackTsu tracks)
          (confirmedIdx tracks) (List.range numDets)).2.1)
        (matching_cascade solver gatedCost mthr max_age (trackTsu tracks)
          (confirmedIdx tracks) (List.range numDets)).2.2) miou
      (iouCandidates tracks (matching_cascade solver gatedCost mthr max_age
        (trackTsu tracks) (confirmedIdx tracks) (List.range numDets)).2.1)
      (matching_cascade solver gatedCost mthr max_age (trackTsu tracks)
        (confirmedIdx tracks) (List.range numDets)).2.2 hv
    have nodupB_all_t := permB_t.symm.nodup hcands_nd
    have nodupB_all_d := permB_d.symm.nodup nodupA_pool
    have nodupB_fst := nodupB_all_t.of_append_left
    have nodupB_snd := nodupB_all_d.of_append_left
    have hBfst_sub : ∀ x ∈ (mcmMatches solver (iouCost (iouCandidates tracks
        (matching_cascade solver gatedCost mthr max_age (trackTsu tracks)
          (confirmedIdx tracks) (List.range numDets)).2.1)
        (matching_cascade solver gatedCost mthr max_age (trackTsu tracks)
          (confirmedIdx tracks) (List.range numDets)).2.2) miou
        (iouCandidates tracks (matching_cascade solver gatedCost mthr max_age
          (trackTsu tracks) (confirmedIdx tracks) (List.range numDets)).2.1)
        (matching_cascade solver gatedCost mthr max_age (trackTsu tracks)
          (confirmedIdx tracks) (List.range numDets)).2.2).map Prod.fst,
        x ∈ iouCandidates tracks (matching_cascade solver gatedCost mthr max_age
          (trackTsu tracks) (confirmedIdx tracks) (List.range numDets)).2.1 :=
      fun x hx => permB_t.subset (List.mem_append_left _ hx)
    have hBsnd_sub : ∀ x ∈ (mcmMatches solver (iouCost (iouCandidates tracks
        (matching_cascade solver gatedCost mthr max_age (trackTsu tracks)
          (confirmedIdx tracks) (List.range numDets)).2.1)
        (matching_cascade solver gatedCost mthr max_age (trackTsu tracks)
          (confirmedIdx tracks) (List.range numDets)).2.2) miou
        (iouCandidates tracks (matching_cascade solver gatedCost mthr max_age
          (trackTsu tracks) (confirmedIdx tracks) (List.range numDets)).2.1)
        (matching_cascade solver gatedCost mthr max_age (trackTsu tracks)
          (confirmedIdx tracks) (List.range numDets)).2.2).map Prod.snd,
        x ∈ (matching_cascade solver gatedCost mthr max_age (trackTsu tracks)
          (confirmedIdx tracks) (List.range numDets)).2.2 :=
      fun x hx => permB_d.subset (List.mem_append_left _ hx)
    have hBpool_sub : ∀ x ∈ mcmUnDets solver (iouCost (iouCandidates tracks
        (matching_cascade solver gatedCost mthr max_age (trackTsu tracks)
          (confirmedIdx tracks) (List.range numDets)).2.1)
        (matching_cascade solver gatedCost mthr max_age (trackTsu tracks)
          (confirmedIdx tracks) (List.range numDets)).2.2) miou
        (iouCandidates tracks (matching_cascade solver gatedCost mthr max_age
          (trackTsu tracks) (confirmedIdx tracks) (List.range numDets)).2.1)
        (matching_cascade solver gatedCost mthr max_age (trackTsu tracks)
          (confirmedIdx tracks) (List.range numDets)).2.2,
        x ∈ (matching_cascade solver gatedCost mthr max_age (trackTsu tracks)
          (confirmedIdx tracks) (List.range numDets)).2.2 :=
      fun x hx => permB_d.subset (List.mem_append_right _ hx)
    refine ⟨?_, ?_, ?_⟩
    · rw [List.map_append]
      refine List.Nodup.append nodupA_fst nodupB_fst ?_
      intro x hx1 hx2
      obtain ⟨p, hp, rfl⟩ := List.mem_map.1 hx1
      have hx2' := hBfst_sub _ hx2
      rcases List.mem_append.1 hx2' with h | h
      · have hnc := List.of_mem_filter h
        have hc := List.of_mem_filter (memA p hp)
        simp only [Bool.not_eq_true'] at hnc
        rw [hc] at hnc
        exact absurd hnc (by simp)
      · have hmem := List.mem_of_mem_filter h
        exact hutA_notmatched _ hmem p hp rfl
    · rw [List.map_append]
      refine List.Nodup.append nodupA_snd nodupB_snd ?_
      intro x hx1 hx2
      exact disjA hx1 (hBsnd_sub _ hx2)
    · intro d hd
      rw [List.map_append] at hd
      rcases List.mem_append.1 hd with h | h
      · intro hcontra
        exact disjA h (hBpool_sub _ hcontra)
      · exact List.disjoint_of_nodup_append nodupB_all_d h

/-- Witness for C10 at a concrete `Tracker._match` call: one confirmed track
with `time_since_update = 1`, one tentative track, two detections. -/
theorem c10_witness :
    SolverSpec diagSolver ∧
    (((tracker_match diagSolver (fun _ _ _ _ => (0 : ℚ)) (fun _ _ _ _ => (0 : ℚ))
      0 0 1 [⟨1, 1, TrackState.Confirmed, []⟩, ⟨2, 1, TrackState.Tentative, []⟩]
      2).1.map Prod.fst).Nodup ∧
    (((tracker_match diagSolver (fun _ _ _ _ => (0 : ℚ)) (fun _ _ _ _ => (0 : ℚ))
      0 0 1 [⟨1, 1, TrackState.Confirmed, []⟩, ⟨2, 1, TrackState.Tentative, []⟩]
      2).1.map Prod.snd).Nodup) ∧
    (∀ d ∈ (tracker_match diagSolver (fun _ _ _ _ => (0 : ℚ)) (fun _ _ _ _ => (0 : ℚ))
      0 0 1 [⟨1, 1, TrackState.Confirmed, []⟩, ⟨2, 1, TrackState.Tentative, []⟩]
      2).1.map Prod.snd,
      d ∉ (tracker_match diagSolver (fun _ _ _ _ => (0 : ℚ)) (fun _ _ _ _ => (0 : ℚ))
      0 0 1 [⟨1, 1, TrackState.Confirmed, []⟩, ⟨2, 1, TrackState.Tentative, []⟩]
      2).2.2)) :=
  ⟨diagSolver_spec,
    c10_one_to_one diagSolver (fun _ _ _ _ => (0 : ℚ)) (fun _ _ _ _ => (0 : ℚ))
      0 0 1 [⟨1, 1, TrackState.Confirmed, []⟩, ⟨2, 1, TrackState.Tentative, []⟩]
      2 diagSolver_spec⟩

end FlowersTracker
